import Mathlib

/-!
Verification of the skyhook contract & dispatch runtime.

This file shallowly embeds the parts of the `skyhook` Python package that
the checked properties are about:

* `skyhook/service.py` — the specification model (`Service`, `Type`,
  `Function`, `Argument`, `Return`, `Message`), the declaration calls and the
  JSON-Schema reference resolver `_ServiceResolver.resolve` (together with
  the behaviour of the underlying `jsonschema.RefResolver` it delegates to,
  as configured by `_ServiceResolver.__init__("", "...")`).
* the subset of `jsonschema` Draft-7 validation exercised by the package
  (`type`, `properties`, `required`, `additionalProperties`, `const`,
  `enum`, `anyOf`, `items`, `$ref`), as used through `Service.validator`.
* `skyhook/function.py` — the Lambda event guard (`Lambda.wrap`,
  `Lambda.validate`, `Lambda.validate_return`).
* `skyhook/message.py` — `Messenger.validate`/`Messenger.send` and the
  message-receiving wrapper (`MessengerLambda.wraps` with its SNS/SQS
  record extraction).
* `skyhook/generate.py` — the identifier synthesis (`_id_pascal`) and
  the schema-to-annotation compiler (`_annotate_schema`,
  `_annotate_object`, `_annotate_literal`, `_annotate_tuple`,
  `_typed_dict`).

Python strings are modelled as Lean `String` (a wrapper around
`List Char`); Python `dict`s as insertion-ordered association lists with
unique keys; JSON values as the inductive `Json` (floating-point numbers
are not needed by any checked property and are omitted); exceptions as
`Except` results.  Stateful wrapped implementations are modelled as
explicit state transformers so that "the implementation was (not) invoked"
is expressible as (in)dependence of the final state on the implementation.
-/

/-! ## JSON values -/

/-- JSON-like Python values: the data that events, payloads, messages and
literal schema values range over.  `obj` keeps the insertion order of a
Python dict; keys are unique in every value built by the runtime. -/
inductive Json where
  | null
  | bool (b : Bool)
  | int (n : Int)
  | str (s : String)
  | arr (elems : List Json)
  | obj (fields : List (String × Json))

mutual

def Json.decEq : (a b : Json) → Decidable (a = b)
  | .null, .null => isTrue rfl
  | .bool a, .bool b =>
    if h : a = b then isTrue (by rw [h]) else
      isFalse (by intro e; injection e; contradiction)
  | .int a, .int b =>
    if h : a = b then isTrue (by rw [h]) else
      isFalse (by intro e; injection e; contradiction)
  | .str a, .str b =>
    if h : a = b then isTrue (by rw [h]) else
      isFalse (by intro e; injection e; contradiction)
  | .arr a, .arr b =>
    match Json.decEqList a b with
    | isTrue h => isTrue (by rw [h])
    | isFalse h => isFalse (by intro e; injection e; contradiction)
  | .obj a, .obj b =>
    match Json.decEqFields a b with
    | isTrue h => isTrue (by rw [h])
    | isFalse h => isFalse (by intro e; injection e; contradiction)
  | .null, .bool _ => isFalse (fun e => Json.noConfusion e)
  | .null, .int _ => isFalse (fun e => Json.noConfusion e)
  | .null, .str _ => isFalse (fun e => Json.noConfusion e)
  | .null, .arr _ => isFalse (fun e => Json.noConfusion e)
  | .null, .obj _ => isFalse (fun e => Json.noConfusion e)
  | .bool _, .null => isFalse (fun e => Json.noConfusion e)
  | .bool _, .int _ => isFalse (fun e => Json.noConfusion e)
  | .bool _, .str _ => isFalse (fun e => Json.noConfusion e)
  | .bool _, .arr _ => isFalse (fun e => Json.noConfusion e)
  | .bool _, .obj _ => isFalse (fun e => Json.noConfusion e)
  | .int _, .null => isFalse (fun e => Json.noConfusion e)
  | .int _, .bool _ => isFalse (fun e => Json.noConfusion e)
  | .int _, .str _ => isFalse (fun e => Json.noConfusion e)
  | .int _, .arr _ => isFalse (fun e => Json.noConfusion e)
  | .int _, .obj _ => isFalse (fun e => Json.noConfusion e)
  | .str _, .null => isFalse (fun e => Json.noConfusion e)
  | .str _, .bool _ => isFalse (fun e => Json.noConfusion e)
  | .str _, .int _ => isFalse (fun e => Json.noConfusion e)
  | .str _, .arr _ => isFalse (fun e => Json.noConfusion e)
  | .str _, .obj _ => isFalse (fun e => Json.noConfusion e)
  | .arr _, .null => isFalse (fun e => Json.noConfusion e)
  | .arr _, .bool _ => isFalse (fun e => Json.noConfusion e)
  | .arr _, .int _ => isFalse (fun e => Json.noConfusion e)
  | .arr _, .str _ => isFalse (fun e => Json.noConfusion e)
  | .arr _, .obj _ => isFalse (fun e => Json.noConfusion e)
  | .obj _, .null => isFalse (fun e => Json.noConfusion e)
  | .obj _, .bool _ => isFalse (fun e => Json.noConfusion e)
  | .obj _, .int _ => isFalse (fun e => Json.noConfusion e)
  | .obj _, .str _ => isFalse (fun e => Json.noConfusion e)
  | .obj _, .arr _ => isFalse (fun e => Json.noConfusion e)

def Json.decEqList : (a b : List Json) → Decidable (a = b)
  | [], [] => isTrue rfl
  | [], _ :: _ => isFalse (fun e => List.noConfusion e)
  | _ :: _, [] => isFalse (fun e => List.noConfusion e)
  | x :: xs, y :: ys =>
    match Json.decEq x y with
    | isFalse h => isFalse (by intro e; injection e; contradiction)
    | isTrue h1 =>
      match Json.decEqList xs ys with
      | isTrue h2 => isTrue (by rw [h1, h2])
      | isFalse h => isFalse (by intro e; injection e; contradiction)

def Json.decEqFields : (a b : List (String × Json)) → Decidable (a = b)
  | [], [] => isTrue rfl
  | [], _ :: _ => isFalse (fun e => List.noConfusion e)
  | _ :: _, [] => isFalse (fun e => List.noConfusion e)
  | (k, v) :: xs, (l, w) :: ys =>
    if hk : k = l then
      match Json.decEq v w with
      | isFalse h =>
        isFalse (by
          intro e; injection e with e1 _; injection e1; contradiction)
      | isTrue h1 =>
        match Json.decEqFields xs ys with
        | isTrue h2 => isTrue (by rw [hk, h1, h2])
        | isFalse h => isFalse (by intro e; injection e; contradiction)
    else
      isFalse (by
        intro e; injection e with e1 _; injection e1; contradiction)

end

instance : DecidableEq Json := Json.decEq

instance {ε α : Type} [DecidableEq ε] [DecidableEq α] :
    DecidableEq (Except ε α) := fun a b =>
  match a, b with
  | .ok x, .ok y =>
    if h : x = y then isTrue (by rw [h]) else
      isFalse (by intro e; injection e; contradiction)
  | .error x, .error y =>
    if h : x = y then isTrue (by rw [h]) else
      isFalse (by intro e; injection e; contradiction)
  | .ok _, .error _ => isFalse (fun e => Except.noConfusion e)
  | .error _, .ok _ => isFalse (fun e => Except.noConfusion e)

/-- First-match lookup in an association list: Python `dict` access for
dicts built with unique keys (and `dict.get`). -/
def jlookup {α : Type} (kvs : List (String × α)) (k : String) : Option α :=
  match kvs with
  | [] => none
  | (l, v) :: rest => if l = k then some v else jlookup rest k

/-! ## Errors

The runtime's exception vocabulary (`skyhook/error.py` plus the built-in
Python exceptions the code raises or lets propagate).  `resolution` stands
for `jsonschema.RefResolutionError` — the spec's UnresolvedReference. -/

inductive SkyError where
  | contract
  | resolution
  | typeError
  | keyError
  | attributeError
  | valueError (msg : String)
  | noActiveHook
  | exception
  deriving DecidableEq, Repr

/-! ## Schemas

The JSON-Schema vocabulary the package supports (`skyhook/generate.py`'s
`_annotate_schema` dispatch, and the subset of Draft 7 exercised through
`Service.validator`).  `tobject` carries the `properties` map in document
order, the `required` list and the `additionalProperties` flag (absent in
specification documents — permissive `true` — and set to `false` by the
synthesized Lambda event schema). -/
inductive Schema where
  | const (v : Json)
  | enum (vs : List Json)
  | anyOf (ss : List Schema)
  | ref (r : String)
  | tnull
  | tinteger
  | tnumber
  | tboolean
  | tstring
  | ttuple (items : List Schema)
  | tarray (items : Schema)
  | tobject (properties : List (String × Schema)) (required : List String)
      (additionalProperties : Bool)

/-! ## Specification model (`skyhook/service.py`) -/

/-- `service.Type`. -/
structure SType where
  name : String
  description : String
  schema : Schema

/-- `service.Argument`. -/
structure Argument where
  name : String
  description : String
  schema : Schema

/-- `service.Return`. -/
structure Return where
  description : String
  schema : Schema

/-- `service.Function`: `_arguments` is a name-keyed dict in declaration
order; `return_` is `None` until assigned. -/
structure Function where
  name : String
  description : String
  arguments : List Argument
  return_ : Option Return

/-- `service.Message`. -/
structure Message where
  name : String
  description : String
  schema : Schema

/-- `service.Service`: the three name-keyed collections, in declaration
order. -/
structure Service where
  name : String
  version : String
  description : String
  types : List SType
  functions : List Function
  messages : List Message

/-- `Service.declare_type`: raises `ValueError` if the name is already a
key of `self._types`, otherwise inserts.  The returned `Service` is the
post-call state of the mutated object. -/
def Service.declare_type (svc : Service) (t : SType) :
    Service × Option SkyError :=
  if svc.types.any (fun u => u.name = t.name) then
    (svc, some (.valueError ("type '" ++ t.name ++ "' already declared")))
  else
    ({ svc with types := svc.types ++ [t] }, none)

/-- `Service.declare_function` (note the trailing space in the source's
error message). -/
def Service.declare_function (svc : Service) (f : Function) :
    Service × Option SkyError :=
  if svc.functions.any (fun g => g.name = f.name) then
    (svc, some (.valueError
      ("function '" ++ f.name ++ "' already declared ")))
  else
    ({ svc with functions := svc.functions ++ [f] }, none)

/-- `Service.declare_message`. -/
def Service.declare_message (svc : Service) (m : Message) :
    Service × Option SkyError :=
  if svc.messages.any (fun n => n.name = m.name) then
    (svc, some (.valueError
      ("message '" ++ m.name ++ "' already declared")))
  else
    ({ svc with messages := svc.messages ++ [m] }, none)

/-- `Function.declare_argument`. -/
def Function.declare_argument (f : Function) (a : Argument) :
    Function × Option SkyError :=
  if f.arguments.any (fun b => b.name = a.name) then
    (f, some (.valueError
      ("duplicate argument '" ++ a.name ++ "' for '" ++ f.name ++ "'")))
  else
    ({ f with arguments := f.arguments ++ [a] }, none)

/-- `Service.type(name)`: lookup, `ValueError` when absent. -/
def Service.typeNamed (svc : Service) (n : String) :
    Except SkyError SType :=
  match svc.types.find? (fun t => t.name = n) with
  | some t => .ok t
  | none => .error (.valueError ("no type '" ++ n ++ "' declared'"))

/-- `Service.function(name)`. -/
def Service.functionNamed (svc : Service) (n : String) :
    Except SkyError Function :=
  match svc.functions.find? (fun f => f.name = n) with
  | some f => .ok f
  | none => .error (.valueError ("no function '" ++ n ++ "' declared"))

/-- `Service.message(name)`. -/
def Service.messageNamed (svc : Service) (n : String) :
    Except SkyError Message :=
  match svc.messages.find? (fun m => m.name = n) with
  | some m => .ok m
  | none => .error (.valueError ("no message '" ++ n ++ "' declared"))

/-! ## Reference resolution (`_ServiceResolver` and its base class)

`_ServiceResolver.__init__` calls `jsonschema.RefResolver.__init__("",
"...")`, so the base resolver's document store maps the empty URI to the
placeholder referrer document `"..."` (a plain string), and any reference
it is asked to resolve is joined against the empty resolution scope
(`urljoin("", ref) = ref`). -/

/-- Python `str.startswith`. -/
def pyStartswith (s pfx : String) : Bool :=
  pfx.data.isPrefixOf s.data

/-- Python `s[n:]`. -/
def pySliceFrom (s : String) (n : Nat) : String :=
  ⟨s.data.drop n⟩

/-- Split a character list at the first occurrence of `sep`; the second
component is `none` when `sep` does not occur. -/
def splitAtFirst (sep : Char) : List Char → List Char × Option (List Char)
  | [] => ([], none)
  | c :: cs =>
    if c = sep then ([], some cs)
    else
      let r := splitAtFirst sep cs
      (c :: r.1, r.2)

/-- `urllib.parse.urldefrag`: split at the first `#`; no fragment yields
the empty fragment. -/
def urldefrag (s : String) : String × String :=
  match splitAtFirst '#' s.data with
  | (u, none) => (⟨u⟩, "")
  | (u, some f) => (⟨u⟩, ⟨f⟩)

/-- Python `str.split(sep)` for a one-character separator (note
`"".split(sep) = [""]`). -/
def pySplitChar (sep : Char) : List Char → List (List Char)
  | [] => [[]]
  | c :: cs =>
    match pySplitChar sep cs with
    | [] => [[]]
    | p :: ps => if c = sep then [] :: p :: ps else (c :: p) :: ps

/-- CPython `int(str)` on the plain grammar: an optional sign followed by
one or more decimal digits (surrounding whitespace and `_` separators,
accepted by CPython, are omitted — no JSON pointer considered in this
development uses them). -/
def digitsToNat : List Char → Option Nat
  | cs =>
    if cs ≠ [] ∧ cs.all Char.isDigit then
      some (cs.foldl (fun a c => a * 10 + (c.toNat - 48)) 0)
    else none

def pyIntOfString (s : String) : Option Int :=
  match s.data with
  | '+' :: rest => (digitsToNat rest).map Int.ofNat
  | '-' :: rest => (digitsToNat rest).map (fun n => -(n : Int))
  | rest => (digitsToNat rest).map Int.ofNat

/-- Python sequence indexing with negative-index support: maps a Python
index to a list position, `none` when out of range. -/
def pyIndex (len : Nat) (i : Int) : Option Nat :=
  if 0 ≤ i ∧ i < (len : Int) then some i.toNat
  else if -(len : Int) ≤ i ∧ i < 0 then some ((len : Int) + i).toNat
  else none

/-- `document[part]` as performed by `RefResolver.resolve_fragment`: for a
sequence document (string or list) the part has been converted with
`int()` when possible; a dict is indexed by the raw key; `TypeError` and
`LookupError` both surface as `none` (the caller raises
RefResolutionError). -/
def jsonGetItem (doc : Json) (part : String) : Option Json :=
  match doc with
  | .str s =>
    match pyIntOfString part with
    | some i =>
      match pyIndex s.data.length i with
      | some k =>
        match s.data.get? k with
        | some c => some (.str ⟨[c]⟩)
        | none => none
      | none => none
    | none => none
  | .arr xs =>
    match pyIntOfString part with
    | some i =>
      match pyIndex xs.length i with
      | some k => xs.get? k
      | none => none
    | none => none
  | .obj kvs => jlookup kvs part
  | _ => none

/-- The JSON-pointer walk of `RefResolver.resolve_fragment` (percent
unquoting omitted; `~1`/`~0` unescaping kept). -/
def resolveFragmentParts : Json → List (List Char) → Except SkyError Json
  | doc, [] => .ok doc
  | doc, p :: ps =>
    let part := ((String.mk p).replace "~1" "/").replace "~0" "~"
    match jsonGetItem doc part with
    | some d => resolveFragmentParts d ps
    | none => .error .resolution

/-- `RefResolver.resolve_fragment`: strip leading `/`, split the remainder
on `/` (an empty fragment yields no parts and returns the document
itself). -/
def resolveFragment (doc : Json) (fragment : String) :
    Except SkyError Json :=
  let frag := fragment.data.dropWhile (fun c => c = '/')
  if frag.isEmpty then .ok doc
  else resolveFragmentParts doc (pySplitChar '/' frag)

/-- Outcome of `_ServiceResolver.resolve`: either the schema of a declared
type, or a document produced by the base resolver's pointer walk. -/
inductive Resolved where
  | schemaDoc (s : Schema)
  | document (j : Json)

/-- `jsonschema.RefResolver.resolve` under this configuration: split off
the fragment; the empty base URI hits the store (yielding the placeholder
document `"..."`), any other base URI triggers a remote fetch that fails
and is surfaced as RefResolutionError. -/
def baseResolve (ref : String) : Except SkyError (String × Resolved) :=
  let url := ref
  let bf := urldefrag url
  if bf.1 = "" then
    match resolveFragment (Json.str "...") bf.2 with
    | .ok doc => .ok (url, .document doc)
    | .error e => .error e
  else .error .resolution

/-- `_ServiceResolver.resolve`: a reference into `#/types/` is answered
from the service's declared types — the `ValueError` raised by
`Service.type` for an undeclared name is caught and re-raised as
RefResolutionError — and every other reference is delegated to the base
`jsonschema.RefResolver`. -/
def serviceResolve (svc : Service) (ref : String) :
    Except SkyError (String × Resolved) :=
  if pyStartswith ref "#/types/" then
    match svc.typeNamed (pySliceFrom ref 8) with
    | .ok t => .ok ("", .schemaDoc t.schema)
    | .error _ => .error .resolution
  else baseResolve ref

/-! ## Draft-7 validation (the subset reached through `Service.validator`)

`validator.validate(instance)` raises the first error produced by
`iter_errors`, which checks keywords in schema-dict order and descends
into subschemas in document order.  The outcome is three-valued:
`.ok true` — valid; `.ok false` — a `jsonschema.ValidationError` is
raised (the callers turn it into `ContractError`); `.error ()` — an
exception other than `ValidationError` escapes (a RefResolutionError, or
exhaustion of the `fuel` bound on `$ref`-chain depth, which models
CPython's recursion limit).  Within one keyword the first failing check
wins, matching the first raised error.  The schema walk `validateCore` is
structurally recursive and takes the `$ref` keyword's behaviour as a
callback; `validateS` ties the knot with the fuel-bounded resolver. -/

/-- Element loop for a homogeneous `items` schema: every element must
validate, first failure or crash wins. -/
def validateSeq (check : Json → Except Unit Bool) :
    List Json → Except Unit Bool
  | [] => .ok true
  | x :: rest =>
    match check x with
    | .ok true => validateSeq check rest
    | .ok false => .ok false
    | .error e => .error e

mutual

def validateCore (svc : Service)
    (refHandler : String → Json → Except Unit Bool) (s : Schema)
    (j : Json) : Except Unit Bool :=
  match s with
  | .const v => .ok (j = v : Bool)
  | .enum vs => .ok (vs.contains j)
  | .anyOf ss => validateAnyOf svc refHandler ss j
  | .ref r => refHandler r j
  | .tnull => .ok (j = Json.null : Bool)
  | .tinteger =>
    .ok (match j with | .int _ => true | _ => false)
  | .tnumber =>
    .ok (match j with | .int _ => true | _ => false)
  | .tboolean =>
    .ok (match j with | .bool _ => true | _ => false)
  | .tstring =>
    .ok (match j with | .str _ => true | _ => false)
  | .ttuple items =>
    match j with
    | .arr xs => validateTuple svc refHandler items xs
    | _ => .ok false
  | .tarray item =>
    match j with
    | .arr xs => validateSeq (fun x => validateCore svc refHandler item x) xs
    | _ => .ok false
  | .tobject props reqd addl =>
    match j with
    | .obj kvs =>
      match validateProps svc refHandler props kvs with
      | .error e => .error e
      | .ok false => .ok false
      | .ok true =>
        if reqd.all (fun r => (jlookup kvs r).isSome) then
          if addl || kvs.all (fun kv => props.any (fun p => p.1 = kv.1))
          then .ok true
          else .ok false
        else .ok false
    | _ => .ok false

def validateAnyOf (svc : Service)
    (refHandler : String → Json → Except Unit Bool) (ss : List Schema)
    (j : Json) : Except Unit Bool :=
  match ss with
  | [] => .ok false
  | s :: rest =>
    match validateCore svc refHandler s j with
    | .ok true => .ok true
    | .ok false => validateAnyOf svc refHandler rest j
    | .error e => .error e

def validateTuple (svc : Service)
    (refHandler : String → Json → Except Unit Bool) (items : List Schema)
    (xs : List Json) : Except Unit Bool :=
  match items, xs with
  | [], _ => .ok true
  | _ :: _, [] => .ok true
  | s :: ss, x :: rest =>
    match validateCore svc refHandler s x with
    | .ok true => validateTuple svc refHandler ss rest
    | .ok false => .ok false
    | .error e => .error e

def validateProps (svc : Service)
    (refHandler : String → Json → Except Unit Bool)
    (props : List (String × Schema)) (kvs : List (String × Json)) :
    Except Unit Bool :=
  match props with
  | [] => .ok true
  | (k, sub) :: rest =>
    match jlookup kvs k with
    | none => validateProps svc refHandler rest kvs
    | some v =>
      match validateCore svc refHandler sub v with
      | .ok true => validateProps svc refHandler rest kvs
      | .ok false => .ok false
      | .error e => .error e

end

/-- The `$ref` keyword at a given remaining unfolding depth: resolve
through `_ServiceResolver.resolve`; a resolved type schema is descended
into with one unit of fuel consumed, anything else (a base-resolver
document used as a schema, a resolution failure, or fuel exhaustion) is a
non-`ValidationError` exception. -/
def refHandlerAt (svc : Service) : Nat → String → Json → Except Unit Bool
  | 0, _, _ => .error ()
  | f + 1, r, j =>
    match serviceResolve svc r with
    | .ok (_, .schemaDoc sch) =>
      validateCore svc (fun r' j' => refHandlerAt svc f r' j') sch j
    | _ => .error ()

/-- Validation of instance `j` against schema `s` within service `svc`,
unfolding at most `fuel` references. -/
def validateS (svc : Service) (fuel : Nat) (s : Schema) (j : Json) :
    Except Unit Bool :=
  validateCore svc (fun r j2 => refHandlerAt svc fuel r j2) s j

/-! ## The Lambda event and return guards (`skyhook/function.py`)

Wrapped implementations are modelled as state transformers
`σ → boundArguments → σ × result` so that invocation (and its side
effects) is visible in the final state. -/

/-- The object schema `Lambda.validate` synthesizes for the incoming
event: one property per declared argument, all of them required, no
additional properties permitted. -/
def Lambda.eventSchema (f : Function) : Schema :=
  .tobject (f.arguments.map fun a => (a.name, a.schema))
    (f.arguments.map fun a => a.name) false

/-- `Lambda.validate`: validate the event against the synthesized schema;
a `ValidationError` becomes `ContractError`, any other exception (a
RefResolutionError) propagates. -/
def Lambda.validate (svc : Service) (fuel : Nat) (f : Function)
    (event : Json) : Except SkyError Unit :=
  match validateS svc fuel (Lambda.eventSchema f) event with
  | .ok true => .ok ()
  | .ok false => .error .contract
  | .error _ => .error .resolution

/-- `Lambda.validate_return`: validate against the declared return schema
(`self._function.return_.schema`; with no declared return this attribute
access fails). -/
def Lambda.validate_return (svc : Service) (fuel : Nat) (f : Function)
    (ret : Json) : Except SkyError Unit :=
  match f.return_ with
  | none => .error .attributeError
  | some r =>
    match validateS svc fuel r.schema ret with
    | .ok true => .ok ()
    | .ok false => .error .contract
    | .error _ => .error .resolution

/-- The by-name binding `inspect.Signature.bind(**event)` produces on
success: each declared argument paired with the event field of the same
name, in declaration order. -/
def boundArguments (f : Function) (kvs : List (String × Json)) :
    List (String × Json) :=
  f.arguments.map fun a => (a.name, (jlookup kvs a.name).getD .null)

/-- `inspect.Signature.bind(**event)` for the signature
`Function.signature` builds — one positional-or-keyword parameter per
declared argument, in declaration order: `TypeError` when a parameter is
missing or an unexpected keyword is present; on success every parameter is
bound by name. -/
def signatureBind (f : Function) (kvs : List (String × Json)) :
    Except SkyError (List (String × Json)) :=
  if f.arguments.all (fun a => (jlookup kvs a.name).isSome)
      && kvs.all (fun kv => f.arguments.any (fun a => a.name = kv.1)) then
    .ok (boundArguments f kvs)
  else .error .typeError

/-- Lines 60–63 of `Lambda.wrap.lambda_guard`: after the implementation
has returned, gate its result through the return guard when a return is
declared, and otherwise discard it (the guard returns Python `None`,
i.e. `none`). -/
def Lambda.afterImpl (svc : Service) (fuel : Nat) (f : Function)
    (ret : Json) : Except SkyError (Option Json) :=
  match f.return_ with
  | some _ =>
    match Lambda.validate_return svc fuel f ret with
    | .ok _ => .ok (some ret)
    | .error e => .error e
  | none => .ok none

/-- `Lambda.wrap.lambda_guard`: validate the event, bind its fields to the
implementation's parameters by name, invoke the implementation, and gate
the result.  The first component of the outcome is the final state — equal
to the initial state exactly when the implementation never ran. -/
def Lambda.lambda_guard {σ : Type} (svc : Service) (fuel : Nat)
    (f : Function) (impl : σ → List (String × Json) → σ × Json)
    (event : Json) (s : σ) : σ × Except SkyError (Option Json) :=
  match Lambda.validate svc fuel f event with
  | .error e => (s, .error e)
  | .ok _ =>
    match event with
    | .obj kvs =>
      match signatureBind f kvs with
      | .error e => (s, .error e)
      | .ok bound =>
        let sr := impl s bound
        (sr.1, Lambda.afterImpl svc fuel f sr.2)
    | _ => (s, .error .typeError)

/-! ## The dispatch hook (activation only) -/

/-- Modelled from the spec: the module `skyhook/hook.py` is not among the
provided sources (only its importers and callers appear), so the
activation state of §4.6 is modelled from the spec's words — `bind()` is a
scoped-activation operation whose scopes nest, `current()` returns the
innermost active hook and fails with a NoActiveHook error when none is
active.  The state is the stack of active hooks, innermost first, over an
arbitrary hook representation `κ`; `Hook.current` reads the innermost
entry. -/
def Hook.current {κ : Type} (stack : List κ) : Except SkyError κ :=
  match stack with
  | [] => .error .noActiveHook
  | h :: _ => .ok h

/-- Modelled from the spec: entering a `bind()` scope pushes the hook onto
the activation stack. -/
def Hook.bindEnter {κ : Type} (h : κ) (stack : List κ) : List κ :=
  h :: stack

/-- Modelled from the spec: leaving a `bind()` scope pops exactly the
entry its entry pushed, restoring the previous stack. -/
def Hook.bindExit {κ : Type} (stack : List κ) : List κ :=
  stack.tail

/-! ## Messages (`skyhook/message.py`) -/

/-- `Messenger.validate`: the message value against the message schema. -/
def Messenger.validate (svc : Service) (msg : Message) (fuel : Nat)
    (m : Json) : Except SkyError Unit :=
  match validateS svc fuel msg.schema m with
  | .ok true => .ok ()
  | .ok false => .error .contract
  | .error _ => .error .resolution

/-- `Messenger.send`: validate the message, then look up the current hook
and hand the message to it.  The hook's own `send` is external to the
provided sources and is therefore a parameter `hookSend` over an abstract
hook representation `κ` and result type `ρ`. -/
def Messenger.send {κ ρ : Type} (svc : Service) (msg : Message)
    (fuel : Nat) (stack : List κ) (hookSend : κ → String → Json → ρ)
    (m : Json) : Except SkyError ρ :=
  match Messenger.validate svc msg fuel m with
  | .error e => .error e
  | .ok _ =>
    match Hook.current stack with
    | .error e => .error e
    | .ok h => .ok (hookSend h msg.name m)

/-! ## The message-receiving wrapper (`MessengerLambda`)

`json.loads` is the standard library's JSON text decoder — an external
collaborator here — and is passed in as a parameter `loads` (`none`
models a `json.JSONDecodeError`). -/

/-- The loop body of `_messages_from_sns`: walk the records in order; a
record that is not a dict fails at `record.get` (`AttributeError`); a
record tagged `EventSource == "aws:sns"` must carry `record["Sns"]
["Message"]` (`KeyError` when missing, `TypeError` when `Sns` is not
subscriptable by a string or the message is not text), whose decoded and
validated payload is appended; any other record is skipped. -/
def snsRecordMessages (loads : String → Option Json) (svc : Service)
    (msg : Message) (fuel : Nat) :
    List Json → Except SkyError (List Json)
  | [] => .ok []
  | r :: rest =>
    match r with
    | .obj rkvs =>
      if jlookup rkvs "EventSource" = some (Json.str "aws:sns") then
        match jlookup rkvs "Sns" with
        | none => .error .keyError
        | some (.obj skvs) =>
          match jlookup skvs "Message" with
          | none => .error .keyError
          | some (.str body) =>
            match loads body with
            | none => .error .contract
            | some m =>
              match Messenger.validate svc msg fuel m with
              | .error e => .error e
              | .ok _ =>
                match snsRecordMessages loads svc msg fuel rest with
                | .ok ms => .ok (m :: ms)
                | .error e => .error e
          | some _ => .error .typeError
        | some _ => .error .typeError
      else snsRecordMessages loads svc msg fuel rest
    | _ => .error .attributeError

/-- The loop body of `_messages_from_sqs`: same walk with the
`eventSource == "aws:sqs"` tag and the `record["body"]` payload. -/
def sqsRecordMessages (loads : String → Option Json) (svc : Service)
    (msg : Message) (fuel : Nat) :
    List Json → Except SkyError (List Json)
  | [] => .ok []
  | r :: rest =>
    match r with
    | .obj rkvs =>
      if jlookup rkvs "eventSource" = some (Json.str "aws:sqs") then
        match jlookup rkvs "body" with
        | none => .error .keyError
        | some (.str body) =>
          match loads body with
          | none => .error .contract
          | some m =>
            match Messenger.validate svc msg fuel m with
            | .error e => .error e
            | .ok _ =>
              match sqsRecordMessages loads svc msg fuel rest with
              | .ok ms => .ok (m :: ms)
              | .error e => .error e
        | some _ => .error .typeError
      else sqsRecordMessages loads svc msg fuel rest
    | _ => .error .attributeError

/-- `MessengerLambda._messages_from_sns`: a non-dict event or one without
a `"Records"` key yields no messages; a `"Records"` value that is not a
list fails when iterated/inspected. -/
def MessengerLambda.messages_from_sns (loads : String → Option Json)
    (svc : Service) (msg : Message) (fuel : Nat) (event : Json) :
    Except SkyError (List Json) :=
  match event with
  | .obj kvs =>
    match jlookup kvs "Records" with
    | none => .ok []
    | some (.arr rs) => snsRecordMessages loads svc msg fuel rs
    | some _ => .error .typeError
  | _ => .ok []

/-- `MessengerLambda._messages_from_sqs`. -/
def MessengerLambda.messages_from_sqs (loads : String → Option Json)
    (svc : Service) (msg : Message) (fuel : Nat) (event : Json) :
    Except SkyError (List Json) :=
  match event with
  | .obj kvs =>
    match jlookup kvs "Records" with
    | none => .ok []
    | some (.arr rs) => sqsRecordMessages loads svc msg fuel rs
    | some _ => .error .typeError
  | _ => .ok []

/-- The first statement of `MessengerLambda.wraps.lambda_guard`:
`self._messages_from_sns(event) + self._messages_from_sqs(event)`. -/
def MessengerLambda.decodedMessages (loads : String → Option Json)
    (svc : Service) (msg : Message) (fuel : Nat) (event : Json) :
    Except SkyError (List Json) :=
  match MessengerLambda.messages_from_sns loads svc msg fuel event with
  | .error e => .error e
  | .ok a =>
    match MessengerLambda.messages_from_sqs loads svc msg fuel event with
    | .error e => .error e
    | .ok b => .ok (a ++ b)

/-- Outcome of the wrapped message entry point: either a runtime error
from extraction (`sky`) or an exception raised by the handler
(`handler`). -/
inductive GuardErr (ε : Type) where
  | sky (e : SkyError)
  | handler (e : ε)
  deriving DecidableEq

/-- The per-message loop `for message in messages: callable_(message)`:
the handler (a state transformer returning `some e` when it raises `e`)
is invoked on each message in order; an exception propagates out of the
loop at once. -/
def MessengerLambda.runPerMessage {σ ε : Type}
    (callable : σ → Sum (List Json) Json → σ × Option ε) :
    List Json → σ → σ × Except (GuardErr ε) Unit
  | [], s => (s, .ok ())
  | m :: ms, s =>
    match callable s (.inr m) with
    | (s', none) => MessengerLambda.runPerMessage callable ms s'
    | (s', some e) => (s', .error (.handler e))

/-- `MessengerLambda.wraps.lambda_guard`: extract and validate the decoded
messages, then hand them to the handler — once with the whole list in
batched mode (`.inl`), once per message (`.inr`) otherwise. -/
def MessengerLambda.lambda_guard {σ ε : Type}
    (loads : String → Option Json) (svc : Service) (msg : Message)
    (fuel : Nat) (batched : Bool)
    (callable : σ → Sum (List Json) Json → σ × Option ε)
    (event : Json) (s : σ) : σ × Except (GuardErr ε) Unit :=
  match MessengerLambda.decodedMessages loads svc msg fuel event with
  | .error e => (s, .error (.sky e))
  | .ok messages =>
    if batched then
      match callable s (.inl messages) with
      | (s', none) => (s', .ok ())
      | (s', some e) => (s', .error (.handler e))
    else MessengerLambda.runPerMessage callable messages s

/-! ## Code generation (`skyhook/generate.py`)

Only the pieces the checked properties concern: kebab-name mangling and
the schema-to-annotation compiler.  Compiled descriptors are the Python
AST values the source builds, mirrored by `PyAst`. -/

/-- `keyword.kwlist` for the CPython 3 versions the package targets. -/
def pyKeywords : List String :=
  ["False", "None", "True", "and", "as", "assert", "async", "await",
   "break", "class", "continue", "def", "del", "elif", "else", "except",
   "finally", "for", "from", "global", "if", "import", "in", "is",
   "lambda", "nonlocal", "not", "or", "pass", "raise", "return", "try",
   "while", "with", "yield"]

/-- `keyword.iskeyword`. -/
def iskeyword (s : String) : Bool :=
  pyKeywords.contains s

/-- Python `str.lower` (ASCII suffices for the identifiers involved). -/
def pyLower (s : String) : String :=
  ⟨s.data.map Char.toLower⟩

/-- Python `str.capitalize` on the character list: first character
uppercased, the rest lowercased. -/
def capCore : List Char → List Char
  | [] => []
  | c :: cs => Char.toUpper c :: cs.map Char.toLower

/-- Python `str.capitalize`. -/
def pyCapitalize (s : String) : String :=
  ⟨capCore s.data⟩

/-- Python `"-".join` on character lists. -/
def joinDashCore : List (List Char) → List Char
  | [] => []
  | [p] => p
  | p :: q :: rest => p ++ '-' :: joinDashCore (q :: rest)

/-- Python `"-".join(parts)`. -/
def pyJoinDash (parts : List String) : String :=
  ⟨joinDashCore (parts.map String.data)⟩

/-- Python `name.split("-")`. -/
def pySplitDash (s : String) : List String :=
  (pySplitChar '-' s.data).map String.mk

/-- Python `"".join(parts)`. -/
def strConcat (parts : List String) : String :=
  ⟨(parts.map String.data).flatten⟩

/-- `generate._id_pascal`: kebab-name to PascalName, with a trailing
underscore when the result is a Python keyword. -/
def _id_pascal (name : String) : String :=
  let parts := pySplitDash (pyLower name)
  let identifier := strConcat (parts.map pyCapitalize)
  if iskeyword identifier then identifier ++ "_" else identifier

/-- Constants carried by generated `ast.Constant` nodes. -/
inductive PyConst where
  | json (j : Json)
  | ellipsis

/-- The subset of the Python `ast` node vocabulary the generator emits. -/
inductive PyAst where
  | name (id : String)
  | constant (value : PyConst)
  | attribute (value : PyAst) (attr : String)
  | index (value : PyAst)
  | extSlice (dims : List PyAst)
  | subscript (value : PyAst) (slice : PyAst)
  | dict (keys : List PyAst) (values : List PyAst)
  | call (func : PyAst) (args : List PyAst)
      (keywords : List (String × PyAst))
  | assign (targets : List PyAst) (value : PyAst)
  | classDef (name : String) (bases : List PyAst) (body : List PyAst)

/-- `generate._typing`. -/
def _typing (attr : String) : PyAst :=
  .attribute (.name "_typing") attr

/-- `generate._annotate_literal`. -/
def _annotate_literal (v : Json) : PyAst :=
  match v with
  | .null => .name "None"
  | _ => .subscript (_typing "Literal") (.index (.constant (.json v)))

/-- `generate._typed_dict`. -/
def _typed_dict (name : String) (total : Bool)
    (properties : List (String × PyAst)) : PyAst :=
  .assign [.name name]
    (.call (_typing "TypedDict")
      [.constant (.json (.str name)),
       .dict (properties.map fun p => PyAst.constant (.json (.str p.1)))
         (properties.map Prod.snd)]
      [("total", .constant (.json (.bool total)))])

/-- A successful association-list lookup finds a strictly smaller value
(used for the termination of the annotation compiler, which looks
properties up by name). -/
theorem jlookup_sizeOf_lt {α : Type} [SizeOf α]
    (kvs : List (String × α)) (k : String) (v : α)
    (h : jlookup kvs k = some v) : sizeOf v < sizeOf kvs := by
  induction kvs with
  | nil => simp [jlookup] at h
  | cons hd tl ih =>
    obtain ⟨l, w⟩ := hd
    by_cases hk : l = k
    · simp [jlookup, hk] at h
      subst h
      simp
      omega
    · simp [jlookup, hk] at h
      have := ih h
      simp
      omega

mutual

/-- `generate._annotate_schema`: the keyword dispatch, in source order —
`const`, `enum` (the loop returns on its first iteration, so only the
first declared value is compiled; an empty `enum` falls through every
branch and raises), `anyOf`, `$ref` (resolved by name, not inlined),
the primitive types, arrays (heterogeneous `items` list vs. single
`items` schema) and objects. -/
def _annotate_schema (resolve : String → Except SkyError String)
    (s : Schema) (names : List String) :
    Except SkyError (PyAst × List PyAst) :=
  match s with
  | .const v => .ok (_annotate_literal v, [])
  | .enum vs =>
    match vs with
    | v :: _ => .ok (_annotate_literal v, [])
    | [] => .error .exception
  | .anyOf ss =>
    match annotateItems resolve ss names with
    | .ok (dims, pre) =>
      .ok (.subscript (_typing "Union") (.extSlice dims), pre)
    | .error e => .error e
  | .ref r =>
    match resolve r with
    | .ok resolved => .ok (.constant (.json (.str resolved)), [])
    | .error e => .error e
  | .tnull => .ok (_annotate_literal Json.null, [])
  | .tinteger => .ok (.name "int", [])
  | .tnumber =>
    .ok (.subscript (.name "Union")
      (.extSlice [.name "int", .name "float"]), [])
  | .tboolean => .ok (.name "bool", [])
  | .tstring => .ok (.name "str", [])
  | .ttuple items => _annotate_tuple resolve items names
  | .tarray item =>
    match _annotate_schema resolve item names with
    | .ok (anno, pre) => .ok (.subscript (_typing "List") anno, pre)
    | .error e => .error e
  | .tobject props reqd _ => _annotate_object resolve props reqd names
termination_by (sizeOf s, 0, 0)

/-- `generate._annotate_tuple`. -/
def _annotate_tuple (resolve : String → Except SkyError String)
    (items : List Schema) (names : List String) :
    Except SkyError (PyAst × List PyAst) :=
  match annotateItems resolve items names with
  | .ok (dims, pre) =>
    .ok (.subscript (_typing "Tuple") (.extSlice dims), pre)
  | .error e => .error e
termination_by (sizeOf items, 1, 0)

/-- The element loops of `_annotate_tuple` and the `anyOf` branch:
annotate each subschema with the unchanged path, collecting dims and
preambles in order. -/
def annotateItems (resolve : String → Except SkyError String)
    (ss : List Schema) (names : List String) :
    Except SkyError (List PyAst × List PyAst) :=
  match ss with
  | [] => .ok ([], [])
  | s :: rest =>
    match _annotate_schema resolve s names with
    | .error e => .error e
    | .ok (anno, extra) =>
      match annotateItems resolve rest names with
      | .error e => .error e
      | .ok (dims, pres) => .ok (anno :: dims, extra ++ pres)
termination_by (sizeOf ss, 0, 0)

/-- The field loop of `_annotate_object`: each field name is looked up in
`properties` (`KeyError` when a `required` name is not a property) and
annotated with the path extended by the field name. -/
def annotateFields (resolve : String → Except SkyError String)
    (props : List (String × Schema)) (names : List String)
    (fields : List String) :
    Except SkyError (List (String × PyAst) × List PyAst) :=
  match fields with
  | [] => .ok ([], [])
  | f :: rest =>
    match _hl : jlookup props f with
    | none => .error .keyError
    | some sub =>
      match _annotate_schema resolve sub (names ++ [f]) with
      | .error e => .error e
      | .ok (anno, extra) =>
        match annotateFields resolve props names rest with
        | .error e => .error e
        | .ok (annos, pres) => .ok ((f, anno) :: annos, extra ++ pres)
termination_by (sizeOf props, 0, sizeOf fields)
decreasing_by
  all_goals
    first
      | decreasing_tactic
      | (have h1 : sizeOf sub < sizeOf props := jlookup_sizeOf_lt _ _ _ _hl
         decreasing_tactic)

/-- `generate._annotate_object`: synthesize the record names from the
dash-joined path, partition the properties into required and optional by
the `required` list (Python iterates the two partitions as sets, whose
in-process order this model fixes as: `required` in list order without
duplicates, then the remaining property keys in property order), annotate
each field with the extended path, and emit the two `TypedDict`
assignments plus the combining class. -/
def _annotate_object (resolve : String → Except SkyError String)
    (props : List (String × Schema)) (required : List String)
    (names : List String) : Except SkyError (PyAst × List PyAst) :=
  let name := _id_pascal (pyJoinDash names)
  let nameObject := "_" ++ name ++ "Dict"
  let nameRequired := "_" ++ name ++ "Required"
  let nameOptional := "_" ++ name ++ "Optional"
  let requiredKeys := required.eraseDups
  let optionalKeys :=
    (props.map Prod.fst).filter (fun k => ¬ requiredKeys.contains k)
  match annotateFields resolve props names requiredKeys with
  | .error e => .error e
  | .ok (annoR, preR) =>
    match annotateFields resolve props names optionalKeys with
    | .error e => .error e
    | .ok (annoO, preO) =>
      let assR := _typed_dict nameRequired true annoR
      let assO := _typed_dict nameOptional false annoO
      let classDefn := PyAst.classDef nameObject
        [.name nameRequired, .name nameOptional]
        [.constant .ellipsis]
      .ok (.name nameObject, (preR ++ preO) ++ [assR, assO, classDefn])
termination_by (sizeOf props, 1, 0)

end

/-! ## Concrete fixtures

A small service mirroring the test fixtures of the repository, used to
instantiate the theorems below at concrete inputs. -/

def exType : SType :=
  { name := "num", description := "...", schema := .tinteger }

def exArgFoo : Argument :=
  { name := "foo", description := "...", schema := .const (.str "bar") }

def exArgSpam : Argument :=
  { name := "spam", description := "...", schema := .tstring }

def exFunction : Function :=
  { name := "test"
    description := "..."
    arguments := [exArgFoo, exArgSpam]
    return_ := some { description := "...", schema := .tnumber } }

def exFunctionNoReturn : Function :=
  { name := "test2"
    description := "..."
    arguments := [exArgFoo, exArgSpam]
    return_ := none }

def exMessage : Message :=
  { name := "foo", description := "...", schema := .tstring }

def exService : Service :=
  { name := "test"
    version := "0.0.0"
    description := "..."
    types := [exType]
    functions := [exFunction, exFunctionNoReturn]
    messages := [exMessage] }

/-! ## C10 — failing declarations are atomic -/

/-- C10: a `declare_type`, `declare_function` or `declare_message` call
that fails because the name is already declared raises before inserting,
so the service's types, functions and messages collections are exactly
what they were — nothing is overwritten and nothing is added (and a
failing `Function.declare_argument` likewise leaves the function
unchanged). -/
theorem C10_declare_atomic (svc : Service) (t : SType) (f : Function)
    (m : Message) (g : Function) (a : Argument) :
    (svc.types.any (fun u => u.name = t.name) = true →
      svc.declare_type t = (svc, some (.valueError
        ("type '" ++ t.name ++ "' already declared"))))
    ∧ (svc.functions.any (fun u => u.name = f.name) = true →
      svc.declare_function f = (svc, some (.valueError
        ("function '" ++ f.name ++ "' already declared "))))
    ∧ (svc.messages.any (fun u => u.name = m.name) = true →
      svc.declare_message m = (svc, some (.valueError
        ("message '" ++ m.name ++ "' already declared"))))
    ∧ (g.arguments.any (fun b => b.name = a.name) = true →
      Function.declare_argument g a = (g, some (.valueError
        ("duplicate argument '" ++ a.name ++ "' for '" ++ g.name ++ "'")))) := by
  refine ⟨fun h => ?_, fun h => ?_, fun h => ?_, fun h => ?_⟩ <;>
    simp [Service.declare_type, Service.declare_function,
      Service.declare_message, Function.declare_argument, h]

/-- Witness for C10 at a concrete service: re-declaring the type `num`,
the function `test`, the message `foo` and the argument `foo` all fail
and leave the state untouched. -/
theorem C10_declare_atomic_witness :
    exService.declare_type
        { name := "num", description := "dup", schema := .tnull }
      = (exService, some (.valueError "type 'num' already declared"))
    ∧ exService.declare_function
        { name := "test", description := "dup", arguments := [],
          return_ := none }
      = (exService, some (.valueError "function 'test' already declared "))
    ∧ exService.declare_message
        { name := "foo", description := "dup", schema := .tnull }
      = (exService, some (.valueError "message 'foo' already declared"))
    ∧ Function.declare_argument exFunction
        { name := "foo", description := "dup", schema := .tnull }
      = (exFunction, some (.valueError
          "duplicate argument 'foo' for 'test'")) :=
  ⟨(C10_declare_atomic exService
      { name := "num", description := "dup", schema := .tnull }
      { name := "test", description := "dup", arguments := [],
        return_ := none }
      { name := "foo", description := "dup", schema := .tnull }
      exFunction
      { name := "foo", description := "dup", schema := .tnull }).1
      (by decide),
   (C10_declare_atomic exService
      { name := "num", description := "dup", schema := .tnull }
      { name := "test", description := "dup", arguments := [],
        return_ := none }
      { name := "foo", description := "dup", schema := .tnull }
      exFunction
      { name := "foo", description := "dup", schema := .tnull }).2.1
      (by decide),
   (C10_declare_atomic exService
      { name := "num", description := "dup", schema := .tnull }
      { name := "test", description := "dup", arguments := [],
        return_ := none }
      { name := "foo", description := "dup", schema := .tnull }
      exFunction
      { name := "foo", description := "dup", schema := .tnull }).2.2.1
      (by decide),
   (C10_declare_atomic exService
      { name := "num", description := "dup", schema := .tnull }
      { name := "test", description := "dup", arguments := [],
        return_ := none }
      { name := "foo", description := "dup", schema := .tnull }
      exFunction
      { name := "foo", description := "dup", schema := .tnull }).2.2.2
      (by decide)⟩

/-! ## C8 — hook activation nests as a stack -/

/-- C8: `bind()` scopes nest (modelled from the spec, `skyhook/hook.py`
being absent from the provided sources): after activating hook A and then
hook B, `current()` returns B; exiting B's scope exactly restores the
previous activation state, making A current again; and with no active
scope `current()` fails with a NoActiveHook error. -/
theorem C8_bind_nesting {HookT : Type} (A B : HookT) (stack : List HookT) :
    Hook.current (Hook.bindEnter B (Hook.bindEnter A stack)) = .ok B
    ∧ Hook.current (Hook.bindExit (Hook.bindEnter B (Hook.bindEnter A stack)))
        = .ok A
    ∧ Hook.bindExit (Hook.bindEnter B (Hook.bindEnter A stack))
        = Hook.bindEnter A stack
    ∧ Hook.current ([] : List HookT) = .error .noActiveHook :=
  ⟨rfl, rfl, rfl, rfl⟩

/-! ## C4 — enum schemas compile to their first declared value -/

/-- C4: for an enum schema with one or more declared values the compiler
emits the literal-value descriptor of exactly the first declared value
(with no preamble); the remaining declared values are unreachable — the
compiled descriptor does not depend on them at all. -/
theorem C4_enum_first_value (resolve : String → Except SkyError String)
    (v : Json) (rest rest' : List Json) (names : List String) :
    _annotate_schema resolve (.enum (v :: rest)) names
      = .ok (_annotate_literal v, [])
    ∧ _annotate_schema resolve (.enum (v :: rest)) names
      = _annotate_schema resolve (.enum (v :: rest')) names := by
  constructor <;> simp [_annotate_schema]

/-! ## C9 — `Messenger.send` validates before consulting the hook -/

/-- C9: for a message value that violates the message schema,
`Messenger.send` raises ContractError before the current hook is looked
up: the outcome is the same for every activation stack — including the
empty one, so the ContractError takes precedence over NoActiveHook — and
for every possible hook send behaviour, which is never invoked. -/
theorem C9_send_validates_first {HookT R : Type} (svc : Service)
    (msg : Message) (fuel : Nat) (m : Json)
    (h : validateS svc fuel msg.schema m = .ok false) :
    ∀ (stack : List HookT) (hookSend : HookT → String → Json → R),
      Messenger.send svc msg fuel stack hookSend m
        = .error .contract := by
  intro stack hookSend
  simp [Messenger.send, Messenger.validate, h]

/-- Witness for C9: sending the integer `3` where the message `foo`
requires a string fails with ContractError even though no hook is
active. -/
theorem C9_send_validates_first_witness :
    Messenger.send exService exMessage 1 ([] : List Unit)
      (fun _ _ _ => ()) (Json.int 3) = .error .contract :=
  C9_send_validates_first exService exMessage 1 (Json.int 3)
    (by decide) [] (fun _ _ _ => ())

/-! ## C5 — the return guard -/

/-- A valid two-field event for the fixture functions. -/
def exEventGood : List (String × Json) :=
  [("foo", Json.str "bar"), ("spam", Json.str "eggs")]

/-- A counting implementation whose result (a string) violates the
fixture's number return schema. -/
def exImplC5 : Nat → List (String × Json) → Nat × Json :=
  fun n _ => (n + 1, Json.str "nan")

/-- C5: once the event guard has passed and the arguments are bound, a
function with no declared Return discards the implementation's result —
the wrapped call returns Python `None` whatever the implementation
produced — while for a function with a declared Return a result violating
the return schema makes the wrapped call raise ContractError only after
the implementation has run: in both cases the final state is the
implementation's post-state. -/
theorem C5_return_guard {σ : Type} (svc : Service) (fuel : Nat)
    (f : Function) (impl : σ → List (String × Json) → σ × Json)
    (kvs : List (String × Json)) (s : σ)
    (hval : Lambda.validate svc fuel f (.obj kvs) = .ok ())
    (hbind : signatureBind f kvs = .ok (boundArguments f kvs)) :
    (f.return_ = none →
      Lambda.lambda_guard svc fuel f impl (.obj kvs) s
        = ((impl s (boundArguments f kvs)).1, .ok none))
    ∧ (∀ r, f.return_ = some r →
      validateS svc fuel r.schema (impl s (boundArguments f kvs)).2
          = .ok false →
      Lambda.lambda_guard svc fuel f impl (.obj kvs) s
        = ((impl s (boundArguments f kvs)).1, .error .contract)) := by
  constructor
  · intro hr
    simp [Lambda.lambda_guard, hval, hbind, Lambda.afterImpl, hr]
  · intro r hr hbad
    simp [Lambda.lambda_guard, hval, hbind, Lambda.afterImpl, hr,
      Lambda.validate_return, hbad]

/-- Witness for C5: with a valid event, the no-return fixture function
runs the implementation (state `0 → 1`) and returns nothing, and the
number-returning fixture function runs the implementation and only then
fails the return contract on its string result. -/
theorem C5_return_guard_witness :
    Lambda.lambda_guard exService 1 exFunctionNoReturn exImplC5
        (.obj exEventGood) 0 = (1, .ok none)
    ∧ Lambda.lambda_guard exService 1 exFunction exImplC5
        (.obj exEventGood) 0 = (1, .error .contract) := by
  constructor
  · exact (C5_return_guard exService 1 exFunctionNoReturn exImplC5
      exEventGood 0
      (by decide) (by decide)).1 rfl
  · exact (C5_return_guard exService 1 exFunction exImplC5
      exEventGood 0
      (by decide) (by decide)).2
      { description := "...", schema := .tnumber } rfl
      (by decide)

/-! ## C6 — transport-kind then record order, unmatched records skipped -/

/-- Claim-side description of what an SNS-tagged record contributes: the
decoded `Sns.Message` payload for records carrying the first transport
kind's tag, nothing for any other record. -/
def specSnsPayload (loads : String → Option Json) (r : Json) :
    Option Json :=
  match r with
  | .obj rkvs =>
    if jlookup rkvs "EventSource" = some (Json.str "aws:sns") then
      match jlookup rkvs "Sns" with
      | some (.obj skvs) =>
        match jlookup skvs "Message" with
        | some (.str body) => loads body
        | _ => none
      | _ => none
    else none
  | _ => none

/-- Claim-side description of what an SQS-tagged record contributes. -/
def specSqsPayload (loads : String → Option Json) (r : Json) :
    Option Json :=
  match r with
  | .obj rkvs =>
    if jlookup rkvs "eventSource" = some (Json.str "aws:sqs") then
      match jlookup rkvs "body" with
      | some (.str body) => loads body
      | _ => none
    else none
  | _ => none

/-- An SNS-tagged record that decodes and validates cleanly. -/
def snsRecordOk (loads : String → Option Json) (svc : Service)
    (msg : Message) (fuel : Nat) (r : Json) : Prop :=
  ∀ rkvs, r = Json.obj rkvs →
    jlookup rkvs "EventSource" = some (Json.str "aws:sns") →
    ∃ skvs body m, jlookup rkvs "Sns" = some (.obj skvs)
      ∧ jlookup skvs "Message" = some (.str body)
      ∧ loads body = some m
      ∧ Messenger.validate svc msg fuel m = .ok ()

/-- An SQS-tagged record that decodes and validates cleanly. -/
def sqsRecordOk (loads : String → Option Json) (svc : Service)
    (msg : Message) (fuel : Nat) (r : Json) : Prop :=
  ∀ rkvs, r = Json.obj rkvs →
    jlookup rkvs "eventSource" = some (Json.str "aws:sqs") →
    ∃ body m, jlookup rkvs "body" = some (.str body)
      ∧ loads body = some m
      ∧ Messenger.validate svc msg fuel m = .ok ()

theorem snsRecordMessages_eq (loads : String → Option Json)
    (svc : Service) (msg : Message) (fuel : Nat) (records : List Json)
    (hwf : ∀ r ∈ records, ∃ rkvs, r = Json.obj rkvs)
    (hok : ∀ r ∈ records, snsRecordOk loads svc msg fuel r) :
    snsRecordMessages loads svc msg fuel records
      = .ok (records.filterMap (specSnsPayload loads)) := by
  induction records with
  | nil => simp [snsRecordMessages]
  | cons r rest ih =>
    obtain ⟨rkvs, rfl⟩ := hwf r (List.mem_cons_self r rest)
    have ihr := ih (fun q hq => hwf q (List.mem_cons_of_mem _ hq))
      (fun q hq => hok q (List.mem_cons_of_mem _ hq))
    by_cases htag :
        jlookup rkvs "EventSource" = some (Json.str "aws:sns")
    · obtain ⟨skvs, body, m, h1, h2, h3, h4⟩ :=
        hok _ (List.mem_cons_self _ rest) rkvs rfl htag
      simp [snsRecordMessages, htag, h1, h2, h3, h4, ihr,
        specSnsPayload]
    · simp [snsRecordMessages, htag, ihr, specSnsPayload]

theorem sqsRecordMessages_eq (loads : String → Option Json)
    (svc : Service) (msg : Message) (fuel : Nat) (records : List Json)
    (hwf : ∀ r ∈ records, ∃ rkvs, r = Json.obj rkvs)
    (hok : ∀ r ∈ records, sqsRecordOk loads svc msg fuel r) :
    sqsRecordMessages loads svc msg fuel records
      = .ok (records.filterMap (specSqsPayload loads)) := by
  induction records with
  | nil => simp [sqsRecordMessages]
  | cons r rest ih =>
    obtain ⟨rkvs, rfl⟩ := hwf r (List.mem_cons_self r rest)
    have ihr := ih (fun q hq => hwf q (List.mem_cons_of_mem _ hq))
      (fun q hq => hok q (List.mem_cons_of_mem _ hq))
    by_cases htag :
        jlookup rkvs "eventSource" = some (Json.str "aws:sqs")
    · obtain ⟨body, m, h1, h2, h3⟩ :=
        hok _ (List.mem_cons_self _ rest) rkvs rfl htag
      simp [sqsRecordMessages, htag, h1, h2, h3, ihr, specSqsPayload]
    · simp [sqsRecordMessages, htag, ihr, specSqsPayload]

/-- C6: for an envelope whose records are record maps that decode and
validate cleanly, the decoded sequence is exactly the SNS-tagged records'
payloads, in record order, followed by the SQS-tagged records' payloads,
in record order; records with an unrecognized source tag contribute
nothing (skipped, not an error), so an envelope with zero matching
records yields the empty sequence. -/
theorem C6_transport_order (loads : String → Option Json) (svc : Service)
    (msg : Message) (fuel : Nat) (evkvs : List (String × Json))
    (records : List Json)
    (hrec : jlookup evkvs "Records" = some (.arr records))
    (hwf : ∀ r ∈ records, ∃ rkvs, r = Json.obj rkvs)
    (hsns : ∀ r ∈ records, snsRecordOk loads svc msg fuel r)
    (hsqs : ∀ r ∈ records, sqsRecordOk loads svc msg fuel r) :
    MessengerLambda.decodedMessages loads svc msg fuel (.obj evkvs)
      = .ok (records.filterMap (specSnsPayload loads)
          ++ records.filterMap (specSqsPayload loads))
    ∧ ((∀ r ∈ records, specSnsPayload loads r = none
          ∧ specSqsPayload loads r = none) →
        MessengerLambda.decodedMessages loads svc msg fuel (.obj evkvs)
          = .ok []) := by
  have hs := snsRecordMessages_eq loads svc msg fuel records hwf hsns
  have hq := sqsRecordMessages_eq loads svc msg fuel records hwf hsqs
  have hmain : MessengerLambda.decodedMessages loads svc msg fuel
      (.obj evkvs)
      = .ok (records.filterMap (specSnsPayload loads)
          ++ records.filterMap (specSqsPayload loads)) := by
    simp [MessengerLambda.decodedMessages,
      MessengerLambda.messages_from_sns,
      MessengerLambda.messages_from_sqs, hrec, hs, hq]
  refine ⟨hmain, fun hnone => ?_⟩
  rw [hmain]
  have h1 : records.filterMap (specSnsPayload loads) = [] :=
    List.filterMap_eq_nil_iff.mpr (fun r hr => (hnone r hr).1)
  have h2 : records.filterMap (specSqsPayload loads) = [] :=
    List.filterMap_eq_nil_iff.mpr (fun r hr => (hnone r hr).2)
  rw [h1, h2]
  rfl

/-- A decoder standing in for `json.loads` in the concrete fixtures:
every payload string decodes to itself as a JSON string. -/
def exLoads : String → Option Json :=
  fun s => some (.str s)

/-- A concrete envelope carrying one SNS record (payload `"a"`) and one
SQS record (payload `"b"`). -/
def exEnvelopeRecords : List Json :=
  [.obj [("EventSource", .str "aws:sns"),
         ("Sns", .obj [("Message", .str "a")])],
   .obj [("eventSource", .str "aws:sqs"),
         ("body", .str "b")]]

/-- Witness for C6: the one-of-each envelope decodes to exactly the
two-element sequence `["a", "b"]`, SNS first. -/
theorem C6_transport_order_witness :
    MessengerLambda.decodedMessages exLoads exService exMessage 1
      (.obj [("Records", .arr exEnvelopeRecords)])
      = .ok [.str "a", .str "b"] := by
  have h := (C6_transport_order exLoads exService exMessage 1
    [("Records", .arr exEnvelopeRecords)] exEnvelopeRecords
    (by decide)
    (by
      intro r hr
      simp only [exEnvelopeRecords, List.mem_cons,
        List.not_mem_nil, or_false] at hr
      rcases hr with rfl | rfl
      · exact ⟨_, rfl⟩
      · exact ⟨_, rfl⟩)
    (by
      intro r hr
      simp only [exEnvelopeRecords, List.mem_cons,
        List.not_mem_nil, or_false] at hr
      rcases hr with rfl | rfl
      · intro rkvs hrk htag
        injection hrk with h1
        subst h1
        exact ⟨[("Message", Json.str "a")], "a", .str "a", by decide,
          by decide, by decide, by decide⟩
      · intro rkvs hrk htag
        injection hrk with h1
        subst h1
        simp [jlookup] at htag)
    (by
      intro r hr
      simp only [exEnvelopeRecords, List.mem_cons,
        List.not_mem_nil, or_false] at hr
      rcases hr with rfl | rfl
      · intro rkvs hrk htag
        injection hrk with h1
        subst h1
        simp [jlookup] at htag
      · intro rkvs hrk htag
        injection hrk with h1
        subst h1
        exact ⟨"b", .str "b", by decide, by decide, by decide⟩)).1
  rw [h]
  rfl

/-! ## C3 — a per-message handler failure stops the loop -/

/-- Processing a prefix that succeeds continues into the remainder from
the reached state. -/
theorem runPerMessage_append_ok {σ ε : Type}
    (callable : σ → Sum (List Json) Json → σ × Option ε)
    (xs ys : List Json) (s s1 : σ)
    (h : MessengerLambda.runPerMessage callable xs s = (s1, .ok ())) :
    MessengerLambda.runPerMessage callable (xs ++ ys) s
      = MessengerLambda.runPerMessage callable ys s1 := by
  induction xs generalizing s with
  | nil =>
    simp [MessengerLambda.runPerMessage] at h
    simp [h]
  | cons m rest ih =>
    simp only [MessengerLambda.runPerMessage] at h ⊢
    cases hc : callable s (.inr m) with
    | mk s' o =>
      cases o with
      | none =>
        rw [hc] at h
        simpa [List.cons_append] using ih s' h
      | some e =>
        rw [hc] at h
        simp at h

/-- C3 (amended): in per-message mode, if the handler processes a prefix
of the decoded sequence successfully and then raises on the next message,
the raised exception propagates out of the whole wrapped call at that
point: the final state is the state reached after the failing invocation
— the messages after the failing one are never handed to the handler (the
outcome does not depend on them in any way) — while the prefix stays
processed. -/
theorem C3_failure_stops {σ ε : Type} (loads : String → Option Json)
    (svc : Service) (msg : Message) (fuel : Nat)
    (callable : σ → Sum (List Json) Json → σ × Option ε) (event : Json)
    (s s1 s2 : σ) (pre : List Json) (m : Json) (e : ε)
    (h1 : MessengerLambda.runPerMessage callable pre s = (s1, .ok ()))
    (h2 : callable s1 (.inr m) = (s2, some e)) :
    ∀ post : List Json,
      MessengerLambda.decodedMessages loads svc msg fuel event
          = .ok (pre ++ m :: post) →
      MessengerLambda.lambda_guard loads svc msg fuel false callable
          event s
        = (s2, .error (.handler e)) := by
  intro post hdec
  simp only [MessengerLambda.lambda_guard, hdec]
  rw [runPerMessage_append_ok callable pre (m :: post) s s1 h1]
  simp [MessengerLambda.runPerMessage, h2]

/-- A logging handler that records every message it is invoked on and
then raises. -/
def exHandlerC3 :
    List Json → Sum (List Json) Json → List Json × Option Unit :=
  fun log x =>
    match x with
    | .inr m => (log ++ [m], some ())
    | .inl _ => (log, none)

/-- An envelope delivering the two SNS payloads `"a"` then `"b"`. -/
def exEnvelopeC3 : Json :=
  .obj [("Records", .arr
    [.obj [("EventSource", .str "aws:sns"),
           ("Sns", .obj [("Message", .str "a")])],
     .obj [("EventSource", .str "aws:sns"),
           ("Sns", .obj [("Message", .str "b")])]])]

/-- Counterexample to C3 as stated: the envelope decodes to the two
messages `"a"` and `"b"`; a handler that raises on its very first
invocation is invoked on message 1 only — the wrapped call ends with the
handler's exception, the invocation log contains just `"a"`, and message
2 (`"b"`) is never handed to the handler, contradicting "a failure while
processing message i does not prevent the handler from being invoked for
messages i+1..n". -/
theorem C3_counterexample :
    MessengerLambda.decodedMessages exLoads exService exMessage 1
        exEnvelopeC3 = .ok [.str "a", .str "b"]
    ∧ MessengerLambda.lambda_guard exLoads exService exMessage 1 false
        exHandlerC3 exEnvelopeC3 []
      = ([.str "a"], .error (.handler ()))
    ∧ Json.str "b" ∉
        (MessengerLambda.lambda_guard exLoads exService exMessage 1 false
          exHandlerC3 exEnvelopeC3 []).1 := by
  refine ⟨by decide, by decide, by decide⟩

/-- Witness for the amended C3 at the same concrete input: the failure on
message 1 makes the whole call fail with the handler's exception and a
final state showing only message 1 processed, independently of the
remaining message. -/
theorem C3_failure_stops_witness :
    MessengerLambda.lambda_guard exLoads exService exMessage 1 false
        exHandlerC3 exEnvelopeC3 []
      = ([.str "a"], .error (.handler ())) :=
  C3_failure_stops exLoads exService exMessage 1 exHandlerC3
    exEnvelopeC3 [] [] [.str "a"] [] (.str "a") ()
    (by decide) (by decide) [.str "b"] (by decide)

/-! ## C1 — the event guard accepts exactly the matching payloads -/

/-- The `properties` keyword succeeds on an instance exactly when every
present property validates against its subschema. -/
theorem validateProps_ok_true_iff (svc : Service)
    (rh : String → Json → Except Unit Bool)
    (props : List (String × Schema)) (kvs : List (String × Json)) :
    validateProps svc rh props kvs = .ok true ↔
      ∀ p ∈ props, ∀ v, jlookup kvs p.1 = some v →
        validateCore svc rh p.2 v = .ok true := by
  induction props with
  | nil => simp [validateProps]
  | cons hd rest ih =>
    obtain ⟨k, sub⟩ := hd
    cases hk : jlookup kvs k with
    | none =>
      simp only [validateProps, hk]
      rw [ih]
      constructor
      · intro h p hp v hv
        rcases List.mem_cons.mp hp with heq | hp'
        · subst heq; simp [hk] at hv
        · exact h p hp' v hv
      · intro h p hp v hv
        exact h p (List.mem_cons_of_mem _ hp) v hv
    | some v0 =>
      cases hv0 : validateCore svc rh sub v0 with
      | error e =>
        simp only [validateProps, hk, hv0]
        constructor
        · intro h; cases h
        · intro h
          have hc := h (k, sub) (List.mem_cons_self _ _) v0 hk
          rw [hv0] at hc; cases hc
      | ok b =>
        cases b with
        | false =>
          simp only [validateProps, hk, hv0]
          constructor
          · intro h; cases h
          · intro h
            have hc := h (k, sub) (List.mem_cons_self _ _) v0 hk
            rw [hv0] at hc; cases hc
        | true =>
          simp only [validateProps, hk, hv0]
          rw [ih]
          constructor
          · intro h p hp v hv
            rcases List.mem_cons.mp hp with heq | hp'
            · subst heq
              simp only at hv
              rw [hk] at hv
              injection hv with hv'
              subst hv'
              exact hv0
            · exact h p hp' v hv
          · intro h p hp v hv
            exact h p (List.mem_cons_of_mem _ hp) v hv

/-- An object schema with `additionalProperties: false` accepts an
instance exactly when the present properties validate, every required
name is present, and every instance key is a declared property. -/
theorem validateObject_ok_true_iff (svc : Service)
    (rh : String → Json → Except Unit Bool)
    (props : List (String × Schema)) (reqd : List String)
    (kvs : List (String × Json)) :
    validateCore svc rh (.tobject props reqd false) (.obj kvs)
        = .ok true ↔
      (validateProps svc rh props kvs = .ok true
        ∧ reqd.all (fun r => (jlookup kvs r).isSome) = true
        ∧ kvs.all (fun kv => props.any (fun p => p.1 = kv.1)) = true) := by
  simp only [validateCore]
  cases hp : validateProps svc rh props kvs with
  | error e => simp
  | ok b =>
    cases b with
    | false => simp
    | true =>
      by_cases hr : reqd.all (fun r => (jlookup kvs r).isSome) = true
      · by_cases ha :
            kvs.all (fun kv => props.any (fun p => p.1 = kv.1)) = true
        · simp [hr, ha]
        · simp [hr, ha]
      · simp [hr]

/-- The synthesized event schema accepts an event map exactly when every
declared argument is present with a schema-valid value and the event has
no undeclared field. -/
theorem eventValidate_ok_true_iff (svc : Service) (fuel : Nat)
    (f : Function) (kvs : List (String × Json)) :
    validateS svc fuel (Lambda.eventSchema f) (.obj kvs) = .ok true ↔
      ((∀ a ∈ f.arguments, ∃ v, jlookup kvs a.name = some v ∧
          validateS svc fuel a.schema v = .ok true)
        ∧ ∀ kv ∈ kvs, ∃ a ∈ f.arguments, a.name = kv.1) := by
  unfold validateS Lambda.eventSchema
  rw [validateObject_ok_true_iff, validateProps_ok_true_iff]
  constructor
  · rintro ⟨hprops, hreq, hextra⟩
    constructor
    · intro a ha
      have hs : (jlookup kvs a.name).isSome = true :=
        List.all_eq_true.mp hreq a.name
          (List.mem_map_of_mem (fun a => a.name) ha)
      obtain ⟨v, hv⟩ := Option.isSome_iff_exists.mp hs
      refine ⟨v, hv, ?_⟩
      exact hprops (a.name, a.schema)
        (List.mem_map_of_mem (fun a => (a.name, a.schema)) ha) v hv
    · intro kv hkv
      have hany := List.all_eq_true.mp hextra kv hkv
      obtain ⟨p, hp, hpe⟩ := List.any_eq_true.mp hany
      obtain ⟨a, ha, rfl⟩ := List.mem_map.mp hp
      exact ⟨a, ha, of_decide_eq_true hpe⟩
  · rintro ⟨hargs, hextra⟩
    refine ⟨?_, ?_, ?_⟩
    · intro p hp v hv
      obtain ⟨a, ha, rfl⟩ := List.mem_map.mp hp
      obtain ⟨w, hw, hval⟩ := hargs a ha
      simp only at hv
      rw [hw] at hv
      injection hv with hv'
      subst hv'
      exact hval
    · refine List.all_eq_true.mpr ?_
      intro n hn
      obtain ⟨a, ha, rfl⟩ := List.mem_map.mp hn
      obtain ⟨w, hw, _⟩ := hargs a ha
      simp [hw]
    · refine List.all_eq_true.mpr ?_
      intro kv hkv
      obtain ⟨a, ha, hname⟩ := hextra kv hkv
      refine List.any_eq_true.mpr ?_
      exact ⟨(a.name, a.schema),
        List.mem_map_of_mem (fun a => (a.name, a.schema)) ha,
        decide_eq_true hname⟩

/-- C1: over payload maps (unique-keyed events) whose per-field validation
does not crash on an unresolvable reference: a payload carrying every
declared argument with a schema-valid value and no undeclared field makes
the wrapper bind those fields by name and invoke the wrapped
implementation on exactly that binding (continuing into the return
guard); a payload missing a declared argument, carrying an undeclared
field, or carrying a field value that violates its argument schema makes
the wrapper raise ContractError with the state untouched — the wrapped
implementation is never invoked, whatever it is. -/
theorem C1_event_guard {σ : Type} (svc : Service) (fuel : Nat)
    (f : Function) (impl : σ → List (String × Json) → σ × Json) (s : σ)
    (kvs : List (String × Json))
    (hcrash : validateS svc fuel (Lambda.eventSchema f) (.obj kvs)
      ≠ .error ()) :
    ((∀ a ∈ f.arguments, ∃ v, jlookup kvs a.name = some v ∧
        validateS svc fuel a.schema v = .ok true) →
      (∀ kv ∈ kvs, ∃ a ∈ f.arguments, a.name = kv.1) →
      Lambda.lambda_guard svc fuel f impl (.obj kvs) s
        = ((impl s (boundArguments f kvs)).1,
            Lambda.afterImpl svc fuel f
              (impl s (boundArguments f kvs)).2))
    ∧ (((∃ a ∈ f.arguments, jlookup kvs a.name = none)
        ∨ (∃ kv ∈ kvs, ∀ a ∈ f.arguments, a.name ≠ kv.1)
        ∨ (∃ a ∈ f.arguments, ∃ v, jlookup kvs a.name = some v ∧
            validateS svc fuel a.schema v = .ok false)) →
      Lambda.lambda_guard svc fuel f impl (.obj kvs) s
        = (s, .error .contract)) := by
  constructor
  · intro hargs hextra
    have hok : validateS svc fuel (Lambda.eventSchema f) (.obj kvs)
        = .ok true :=
      (eventValidate_ok_true_iff svc fuel f kvs).mpr ⟨hargs, hextra⟩
    have hval : Lambda.validate svc fuel f (.obj kvs) = .ok () := by
      simp [Lambda.validate, hok]
    have hbind : signatureBind f kvs = .ok (boundArguments f kvs) := by
      have h1 : f.arguments.all
          (fun a => (jlookup kvs a.name).isSome) = true := by
        refine List.all_eq_true.mpr ?_
        intro a ha
        obtain ⟨v, hv, _⟩ := hargs a ha
        simp [hv]
      have h2 : kvs.all
          (fun kv => f.arguments.any (fun a => a.name = kv.1)) = true := by
        refine List.all_eq_true.mpr ?_
        intro kv hkv
        obtain ⟨a, ha, hname⟩ := hextra kv hkv
        exact List.any_eq_true.mpr ⟨a, ha, decide_eq_true hname⟩
      simp [signatureBind, h1, h2]
    simp [Lambda.lambda_guard, hval, hbind]
  · intro hbad
    have hnot : validateS svc fuel (Lambda.eventSchema f) (.obj kvs)
        ≠ .ok true := by
      intro hok
      obtain ⟨hargs, hextra⟩ :=
        (eventValidate_ok_true_iff svc fuel f kvs).mp hok
      rcases hbad with ⟨a, ha, hnone⟩ | ⟨kv, hkv, hall⟩ | ⟨a, ha, v, hv, hfalse⟩
      · obtain ⟨v, hv, _⟩ := hargs a ha
        rw [hnone] at hv; cases hv
      · obtain ⟨a, ha, hname⟩ := hextra kv hkv
        exact hall a ha hname
      · obtain ⟨w, hw, htrue⟩ := hargs a ha
        rw [hw] at hv
        injection hv with hv'
        subst hv'
        rw [htrue] at hfalse
        cases hfalse
    have hfalse : validateS svc fuel (Lambda.eventSchema f) (.obj kvs)
        = .ok false := by
      cases hfv : validateS svc fuel (Lambda.eventSchema f) (.obj kvs) with
      | error e => cases e; exact absurd hfv hcrash
      | ok b =>
        cases b with
        | false => rfl
        | true => exact absurd hfv hnot
    have hval : Lambda.validate svc fuel f (.obj kvs)
        = .error .contract := by
      simp [Lambda.validate, hfalse]
    simp [Lambda.lambda_guard, hval]

/-- A counting implementation returning the number `500`. -/
def exImplC1 : Nat → List (String × Json) → Nat × Json :=
  fun n _ => (n + 1, Json.int 500)

/-- Witness for C1 on the fixture function: the valid two-field event
runs the implementation on the by-name binding and yields its (valid)
return value; the event missing the `spam` argument fails the contract
with the implementation never invoked (state still `0`). -/
theorem C1_event_guard_witness :
    Lambda.lambda_guard exService 1 exFunction exImplC1
        (.obj exEventGood) 0 = (1, .ok (some (.int 500)))
    ∧ Lambda.lambda_guard exService 1 exFunction exImplC1
        (.obj [("foo", Json.str "bar")]) 0 = (0, .error .contract) := by
  constructor
  · have h := (C1_event_guard exService 1 exFunction exImplC1 0
      exEventGood (by decide)).1
      (by
        intro a ha
        simp only [exFunction, List.mem_cons, List.not_mem_nil,
          or_false] at ha
        rcases ha with rfl | rfl
        · exact ⟨.str "bar", by decide, by decide⟩
        · exact ⟨.str "eggs", by decide, by decide⟩)
      (by
        intro kv hkv
        simp only [exEventGood, List.mem_cons, List.not_mem_nil,
          or_false] at hkv
        rcases hkv with rfl | rfl
        · exact ⟨exArgFoo, List.Mem.head _, rfl⟩
        · exact ⟨exArgSpam, List.Mem.tail _ (List.Mem.head _), rfl⟩)
    exact h.trans (by decide)
  · exact (C1_event_guard exService 1 exFunction exImplC1 0
      [("foo", Json.str "bar")] (by decide)).2
      (Or.inl ⟨exArgSpam, List.Mem.tail _ (List.Mem.head _), by decide⟩)

/-! ## C7 — reference resolution -/

theorem pyStartswith_append (p s : String) :
    pyStartswith (p ++ s) p = true := by
  have hdata : (p ++ s).data = p.data ++ s.data := rfl
  simp only [pyStartswith, hdata]
  exact List.isPrefixOf_iff_prefix.mpr (List.prefix_append _ _)

theorem pySliceFrom_types_append (s : String) :
    pySliceFrom ("#/types/" ++ s) 8 = s := by
  have hdata : ("#/types/" ++ s).data = "#/types/".data ++ s.data := rfl
  have hlen : "#/types/".data.length = 8 := rfl
  have h := List.drop_left "#/types/".data s.data
  rw [hlen] at h
  simp only [pySliceFrom, hdata, h]

/-- C7 (amended): a reference of the form `#/types/<name>` resolves to
the declared type's schema, and fails with the UnresolvedReference error
(RefResolutionError) when `<name>` is not declared; a reference not of
that form is delegated unchanged to the base `jsonschema.RefResolver`
(whose pointer walk over the placeholder referrer document fails for
typical references but succeeds for some, e.g. `"#"`). -/
theorem C7_resolver_amended (svc : Service) (name ref : String) :
    (∀ t, svc.types.find? (fun u => u.name = name) = some t →
      serviceResolve svc ("#/types/" ++ name)
        = .ok ("", .schemaDoc t.schema))
    ∧ (svc.types.find? (fun u => u.name = name) = none →
      serviceResolve svc ("#/types/" ++ name) = .error .resolution)
    ∧ (pyStartswith ref "#/types/" = false →
      serviceResolve svc ref = baseResolve ref) := by
  refine ⟨?_, ?_, ?_⟩
  · intro t ht
    simp [serviceResolve, pyStartswith_append, pySliceFrom_types_append,
      Service.typeNamed, ht]
  · intro ht
    simp [serviceResolve, pyStartswith_append, pySliceFrom_types_append,
      Service.typeNamed, ht]
  · intro h
    simp [serviceResolve, h]

/-- Counterexample to C7 as stated: the reference `"#"` is not of the
form `#/types/<name>`, yet resolution does not fail — the base resolver
answers it with the placeholder referrer document `"..."`. -/
theorem C7_resolver_counterexample :
    serviceResolve exService "#" = .ok ("#", .document (Json.str "..."))
    ∧ pyStartswith "#" "#/types/" = false :=
  ⟨rfl, rfl⟩

/-- Witness for the amended C7: the declared type `num` resolves to its
schema, the undeclared `nope` fails with the resolution error, and a
non-type reference is handed to the base resolver. -/
theorem C7_resolver_amended_witness :
    serviceResolve exService "#/types/num"
      = .ok ("", .schemaDoc Schema.tinteger)
    ∧ serviceResolve exService "#/types/nope" = .error .resolution
    ∧ serviceResolve exService "unknown-ref"
      = baseResolve "unknown-ref" :=
  ⟨(C7_resolver_amended exService "num" "unknown-ref").1 exType rfl,
   (C7_resolver_amended exService "nope" "unknown-ref").2.1 rfl,
   (C7_resolver_amended exService "num" "unknown-ref").2.2 rfl⟩

/-! ## C2 — positional naming of synthesized records

The synthesized name is `_id_pascal` of the dash-joined path, so two
positions can only be told apart when the joined-and-mangled strings
differ.  The development below proves the mangling injective on paths of
nonempty, lowercase, purely alphabetic (dash-free) segments — the amended
claim — and exhibits the collision `["foo-bar"]` vs. `["foo", "bar"]`
refuting the claim for arbitrary positions. -/

def lowerAlphaChars : List Char :=
  ['a', 'b', 'c', 'd', 'e', 'f', 'g', 'h', 'i', 'j', 'k', 'l', 'm',
   'n', 'o', 'p', 'q', 'r', 's', 't', 'u', 'v', 'w', 'x', 'y', 'z']

/-- A naming-path segment in the well-behaved fragment: nonempty and made
of lowercase ASCII letters only. -/
def validSegment (s : String) : Prop :=
  s.data ≠ [] ∧ ∀ c ∈ s.data, c ∈ lowerAlphaChars

/-- A naming path in the well-behaved fragment. -/
def validPath (path : List String) : Prop :=
  path ≠ [] ∧ ∀ s ∈ path, validSegment s

theorem toLower_fix_lower : ∀ c ∈ lowerAlphaChars, c.toLower = c := by
  decide

theorem toLower_dash : ('-' : Char).toLower = '-' := by decide

theorem toUpper_inj_lower : ∀ c1 ∈ lowerAlphaChars,
    ∀ c2 ∈ lowerAlphaChars, c1.toUpper = c2.toUpper → c1 = c2 := by
  decide

/-- ASCII uppercase test, marking the starts of pascal-case groups. -/
def isUpperCh (c : Char) : Bool :=
  decide ('A' ≤ c) && decide (c ≤ 'Z')

theorem isUpperCh_lower_false : ∀ c ∈ lowerAlphaChars,
    isUpperCh c = false := by decide

theorem isUpperCh_toUpper_true : ∀ c ∈ lowerAlphaChars,
    isUpperCh c.toUpper = true := by decide

theorem lower_ne_underscore : ∀ c ∈ lowerAlphaChars,
    c ≠ '_' ∧ c.toUpper ≠ '_' := by decide

theorem dash_not_lower : ('-' : Char) ∉ lowerAlphaChars := by decide

theorem pySplitChar_cons (sep c : Char) (cs : List Char) :
    pySplitChar sep (c :: cs)
      = match pySplitChar sep cs with
        | [] => [[]]
        | p :: ps =>
          if c = sep then [] :: p :: ps else (c :: p) :: ps := rfl

theorem pySplitChar_ne_nil (sep : Char) (l : List Char) :
    pySplitChar sep l ≠ [] := by
  induction l with
  | nil => simp [pySplitChar]
  | cons c cs ih =>
    rw [pySplitChar_cons]
    cases h : pySplitChar sep cs with
    | nil => simp
    | cons p ps => by_cases hc : c = sep <;> simp [hc]

theorem pySplitChar_no_sep (sep : Char) (p : List Char)
    (h : sep ∉ p) : pySplitChar sep p = [p] := by
  induction p with
  | nil => rfl
  | cons c cs ih =>
    have hc : c ≠ sep := by
      rintro rfl; exact h (List.mem_cons_self _ _)
    have hcs : sep ∉ cs := fun e => h (List.mem_cons_of_mem _ e)
    rw [pySplitChar_cons, ih hcs]
    simp [hc]

theorem pySplitChar_append_sep (sep : Char) (p w : List Char)
    (h : sep ∉ p) :
    pySplitChar sep (p ++ sep :: w) = p :: pySplitChar sep w := by
  induction p with
  | nil =>
    rw [List.nil_append, pySplitChar_cons]
    cases hw : pySplitChar sep w with
    | nil => exact absurd hw (pySplitChar_ne_nil sep w)
    | cons q qs => simp
  | cons c cs ih =>
    have hc : c ≠ sep := by
      rintro rfl; exact h (List.mem_cons_self _ _)
    have hcs : sep ∉ cs := fun e => h (List.mem_cons_of_mem _ e)
    rw [List.cons_append, pySplitChar_cons, ih hcs]
    simp [hc]

theorem pySplitChar_joinDash (parts : List (List Char))
    (hne : parts ≠ [])
    (hd : ∀ p ∈ parts, ('-' : Char) ∉ p) :
    pySplitChar '-' (joinDashCore parts) = parts := by
  induction parts with
  | nil => exact absurd rfl hne
  | cons p rest ih =>
    cases rest with
    | nil =>
      simp only [joinDashCore]
      exact pySplitChar_no_sep _ _ (hd p (List.mem_cons_self _ _))
    | cons q rest' =>
      simp only [joinDashCore]
      rw [pySplitChar_append_sep _ _ _ (hd p (List.mem_cons_self _ _))]
      rw [ih (by simp) (fun r hr => hd r (List.mem_cons_of_mem _ hr))]

theorem stringDataInj : ∀ {a b : String}, a.data = b.data → a = b := by
  intro a b h
  cases a
  cases b
  exact congrArg String.mk h

theorem map_toLower_fix (l : List Char)
    (h : ∀ c ∈ l, c ∈ lowerAlphaChars ∨ c = '-') :
    l.map Char.toLower = l := by
  induction l with
  | nil => rfl
  | cons c cs ih =>
    have hc : c.toLower = c := by
      rcases h c (List.mem_cons_self _ _) with hc | rfl
      · exact toLower_fix_lower c hc
      · exact toLower_dash
    simp [hc, ih (fun d hd => h d (List.mem_cons_of_mem _ hd))]

theorem joinDashCore_chars (parts : List (List Char))
    (h : ∀ p ∈ parts, ∀ c ∈ p, c ∈ lowerAlphaChars) :
    ∀ c ∈ joinDashCore parts, c ∈ lowerAlphaChars ∨ c = '-' := by
  induction parts with
  | nil => simp [joinDashCore]
  | cons p rest ih =>
    cases rest with
    | nil =>
      intro c hc
      exact Or.inl (h p (List.mem_cons_self _ _) c hc)
    | cons q rest' =>
      intro c hc
      simp only [joinDashCore, List.mem_append, List.mem_cons] at hc
      rcases hc with hc | rfl | hc
      · exact Or.inl (h p (List.mem_cons_self _ _) c hc)
      · exact Or.inr rfl
      · exact ih (fun r hr => h r (List.mem_cons_of_mem _ hr)) c hc

/-- Whether a pascal-case group is still absorbing characters on its
left: it is until it has received its leading uppercase character. -/
def isOpenGroup : List Char → Bool
  | [] => true
  | c :: _ => !(isUpperCh c)

/-- Split a pascal-case concatenation back into its groups: walking from
the right, a character joins the group to its right while that group is
still open and starts a fresh group otherwise. -/
def unpascal : List Char → List (List Char)
  | [] => []
  | c :: cs =>
    match unpascal cs with
    | [] => [[c]]
    | p :: ps => if isOpenGroup p then (c :: p) :: ps else [c] :: p :: ps

/-- The leading group of a parse, when present, is closed. -/
def headClosed : List (List Char) → Prop
  | [] => True
  | g :: _ => isOpenGroup g = false

theorem unpascal_cons (c : Char) (cs : List Char) :
    unpascal (c :: cs)
      = match unpascal cs with
        | [] => [[c]]
        | p :: ps =>
          if isOpenGroup p then (c :: p) :: ps else [c] :: p :: ps := rfl

theorem unpascal_lower_append (t rest : List Char)
    (ht : ∀ c ∈ t, c ∈ lowerAlphaChars) (hne : t ≠ [])
    (hrest : headClosed (unpascal rest)) :
    unpascal (t ++ rest) = t :: unpascal rest := by
  induction t with
  | nil => exact absurd rfl hne
  | cons c cs ih =>
    cases cs with
    | nil =>
      rw [List.cons_append, List.nil_append, unpascal_cons]
      cases hu : unpascal rest with
      | nil => rfl
      | cons g gs =>
        have hg : isOpenGroup g = false := by
          rw [hu] at hrest; exact hrest
        simp [hg]
    | cons d ds =>
      have ihr := ih (fun x hx => ht x (List.mem_cons_of_mem _ hx))
        (by simp)
      rw [List.cons_append, unpascal_cons, ihr]
      have hopen : isOpenGroup (d :: ds) = true := by
        simp [isOpenGroup, isUpperCh_lower_false d
          (ht d (List.mem_cons_of_mem _ (List.mem_cons_self _ _)))]
      simp [hopen]

theorem capCore_lower (c : Char) (t : List Char)
    (ht : ∀ x ∈ t, x ∈ lowerAlphaChars) :
    capCore (c :: t) = c.toUpper :: t := by
  simp only [capCore]
  rw [map_toLower_fix t (fun x hx => Or.inl (ht x hx))]

theorem unpascal_capCore_append (p rest : List Char)
    (hp : ∀ c ∈ p, c ∈ lowerAlphaChars) (hne : p ≠ [])
    (hrest : headClosed (unpascal rest)) :
    unpascal (capCore p ++ rest) = capCore p :: unpascal rest := by
  cases p with
  | nil => exact absurd rfl hne
  | cons c t =>
    have htl : ∀ x ∈ t, x ∈ lowerAlphaChars :=
      fun x hx => hp x (List.mem_cons_of_mem _ hx)
    rw [capCore_lower c t htl]
    cases t with
    | nil =>
      rw [List.cons_append, List.nil_append, unpascal_cons]
      cases hu : unpascal rest with
      | nil => rfl
      | cons g gs =>
        have hg : isOpenGroup g = false := by
          rw [hu] at hrest; exact hrest
        simp [hg]
    | cons d ds =>
      have hul := unpascal_lower_append (d :: ds) rest
        (fun x hx => htl x hx) (by simp) hrest
      rw [List.cons_append, unpascal_cons, hul]
      have hopen : isOpenGroup (d :: ds) = true := by
        simp [isOpenGroup, isUpperCh_lower_false d
          (htl d (List.mem_cons_self _ _))]
      simp [hopen]

theorem headClosed_capCore (p : List Char) (gs : List (List Char))
    (hp : ∀ c ∈ p, c ∈ lowerAlphaChars) (hne : p ≠ []) :
    headClosed (capCore p :: gs) := by
  cases p with
  | nil => exact absurd rfl hne
  | cons c t =>
    rw [capCore_lower c t (fun x hx => hp x (List.mem_cons_of_mem _ hx))]
    show isOpenGroup (c.toUpper :: t) = false
    simp [isOpenGroup,
      isUpperCh_toUpper_true c (hp c (List.mem_cons_self _ _))]

theorem unpascal_flatten (parts : List (List Char))
    (h : ∀ p ∈ parts, p ≠ [] ∧ ∀ c ∈ p, c ∈ lowerAlphaChars) :
    unpascal (parts.map capCore).flatten = parts.map capCore := by
  induction parts with
  | nil => rfl
  | cons p rest ih =>
    simp only [List.map_cons, List.flatten_cons]
    have hrest := ih (fun q hq => h q (List.mem_cons_of_mem _ hq))
    have hcl : headClosed (unpascal (rest.map capCore).flatten) := by
      rw [hrest]
      cases hr : rest with
      | nil => simp [headClosed]
      | cons q qs =>
        simp only [List.map_cons]
        exact headClosed_capCore q _
          (h q (by rw [hr]; exact
            List.mem_cons_of_mem _ (List.mem_cons_self _ _))).2
          (h q (by rw [hr]; exact
            List.mem_cons_of_mem _ (List.mem_cons_self _ _))).1
    rw [unpascal_capCore_append p _ (h p (List.mem_cons_self _ _)).2
      (h p (List.mem_cons_self _ _)).1 hcl, hrest]

theorem capCore_inj (p q : List Char)
    (hp : ∀ c ∈ p, c ∈ lowerAlphaChars)
    (hq : ∀ c ∈ q, c ∈ lowerAlphaChars)
    (hnp : p ≠ []) (hnq : q ≠ [])
    (h : capCore p = capCore q) : p = q := by
  cases p with
  | nil => exact absurd rfl hnp
  | cons c t =>
    cases q with
    | nil => exact absurd rfl hnq
    | cons d u =>
      rw [capCore_lower c t (fun x hx => hp x (List.mem_cons_of_mem _ hx)),
        capCore_lower d u (fun x hx => hq x (List.mem_cons_of_mem _ hx))]
        at h
      injection h with h1 h2
      rw [toUpper_inj_lower c (hp c (List.mem_cons_self _ _))
        d (hq d (List.mem_cons_self _ _)) h1, h2]

theorem map_capCore_inj (ps qs : List (List Char))
    (hps : ∀ p ∈ ps, p ≠ [] ∧ ∀ c ∈ p, c ∈ lowerAlphaChars)
    (hqs : ∀ q ∈ qs, q ≠ [] ∧ ∀ c ∈ q, c ∈ lowerAlphaChars)
    (h : ps.map capCore = qs.map capCore) : ps = qs := by
  induction ps generalizing qs with
  | nil =>
    cases qs with
    | nil => rfl
    | cons q qs' => simp at h
  | cons p ps' ih =>
    cases qs with
    | nil => simp at h
    | cons q qs' =>
      simp only [List.map_cons, List.cons.injEq] at h
      have hpq := capCore_inj p q (hps p (List.mem_cons_self _ _)).2
        (hqs q (List.mem_cons_self _ _)).2
        (hps p (List.mem_cons_self _ _)).1
        (hqs q (List.mem_cons_self _ _)).1 h.1
      rw [hpq, ih qs' (fun r hr => hps r (List.mem_cons_of_mem _ hr))
        (fun r hr => hqs r (List.mem_cons_of_mem _ hr)) h.2]

theorem split_lower_join (path : List String) (h : validPath path) :
    pySplitDash (pyLower (pyJoinDash path)) = path := by
  obtain ⟨hne, hseg⟩ := h
  have hfix : pyLower (pyJoinDash path) = pyJoinDash path := by
    show (⟨(joinDashCore (path.map String.data)).map Char.toLower⟩ : String)
      = ⟨joinDashCore (path.map String.data)⟩
    congr 1
    apply map_toLower_fix
    apply joinDashCore_chars
    intro p hp c hc
    obtain ⟨q, hq, rfl⟩ := List.mem_map.mp hp
    exact (hseg q hq).2 c hc
  rw [hfix]
  show (pySplitChar '-' (joinDashCore (path.map String.data))).map
      String.mk = path
  rw [pySplitChar_joinDash (path.map String.data)
    (by simpa using hne)
    (by
      intro p hp hdc
      obtain ⟨q, hq, rfl⟩ := List.mem_map.mp hp
      exact dash_not_lower ((hseg q hq).2 '-' hdc))]
  have hid : String.mk ∘ String.data = id := funext fun _ => rfl
  rw [List.map_map, hid, List.map_id]

theorem strConcat_cap_data (path : List String) :
    (strConcat (path.map pyCapitalize)).data
      = ((path.map String.data).map capCore).flatten := by
  show ((path.map pyCapitalize).map String.data).flatten
    = ((path.map String.data).map capCore).flatten
  congr 1
  simp only [List.map_map]
  rfl

theorem strConcat_cap_no_underscore (path : List String)
    (h : ∀ s ∈ path, validSegment s) :
    ∀ c ∈ (strConcat (path.map pyCapitalize)).data, c ≠ '_' := by
  rw [strConcat_cap_data]
  intro c hc
  rw [List.mem_flatten] at hc
  obtain ⟨l, hl, hcl⟩ := hc
  rw [List.mem_map] at hl
  obtain ⟨d, hd, rfl⟩ := hl
  rw [List.mem_map] at hd
  obtain ⟨q, hq, rfl⟩ := hd
  obtain ⟨hqne, hqc⟩ := h q hq
  cases hqd : q.data with
  | nil => exact absurd hqd hqne
  | cons x t =>
    rw [hqd] at hcl
    rw [capCore_lower x t
      (fun y hy => hqc y (by rw [hqd]; exact List.mem_cons_of_mem _ hy))]
      at hcl
    rcases List.mem_cons.mp hcl with rfl | hct
    · exact (lower_ne_underscore x
        (hqc x (by rw [hqd]; exact List.mem_cons_self _ _))).2
    · exact (lower_ne_underscore c
        (hqc c (by rw [hqd]; exact List.mem_cons_of_mem _ hct))).1

theorem id_pascal_join_eq (path : List String) (h : validPath path) :
    _id_pascal (pyJoinDash path)
      = (if iskeyword (strConcat (path.map pyCapitalize))
          then strConcat (path.map pyCapitalize) ++ "_"
          else strConcat (path.map pyCapitalize)) := by
  unfold _id_pascal
  rw [split_lower_join path h]

theorem strConcat_cap_inj (p1 p2 : List String)
    (h1 : ∀ s ∈ p1, validSegment s) (h2 : ∀ s ∈ p2, validSegment s)
    (h : strConcat (p1.map pyCapitalize) = strConcat (p2.map pyCapitalize)) :
    p1 = p2 := by
  have hdata := congrArg String.data h
  rw [strConcat_cap_data, strConcat_cap_data] at hdata
  have hv1 : ∀ p ∈ p1.map String.data,
      p ≠ [] ∧ ∀ c ∈ p, c ∈ lowerAlphaChars := by
    intro p hp
    obtain ⟨q, hq, rfl⟩ := List.mem_map.mp hp
    exact ⟨(h1 q hq).1, (h1 q hq).2⟩
  have hv2 : ∀ p ∈ p2.map String.data,
      p ≠ [] ∧ ∀ c ∈ p, c ∈ lowerAlphaChars := by
    intro p hp
    obtain ⟨q, hq, rfl⟩ := List.mem_map.mp hp
    exact ⟨(h2 q hq).1, (h2 q hq).2⟩
  have hmaps : (p1.map String.data).map capCore
      = (p2.map String.data).map capCore := by
    rw [← unpascal_flatten (p1.map String.data) hv1, hdata,
      unpascal_flatten (p2.map String.data) hv2]
  have hdatas := map_capCore_inj _ _ hv1 hv2 hmaps
  have hinj : Function.Injective String.data :=
    fun _ _ hab => stringDataInj hab
  exact List.map_injective_iff.mpr hinj hdatas

theorem id_pascal_path_inj (p1 p2 : List String)
    (h1 : validPath p1) (h2 : validPath p2)
    (heq : _id_pascal (pyJoinDash p1) = _id_pascal (pyJoinDash p2)) :
    p1 = p2 := by
  rw [id_pascal_join_eq p1 h1, id_pascal_join_eq p2 h2] at heq
  have hu1 := strConcat_cap_no_underscore p1 h1.2
  have hu2 := strConcat_cap_no_underscore p2 h2.2
  have hbase : strConcat (p1.map pyCapitalize)
      = strConcat (p2.map pyCapitalize) := by
    by_cases k1 : iskeyword (strConcat (p1.map pyCapitalize)) <;>
      by_cases k2 : iskeyword (strConcat (p2.map pyCapitalize)) <;>
      simp only [k1, k2, if_true, if_false, if_pos, if_neg] at heq
    · have hd' : (strConcat (p1.map pyCapitalize)).data ++ ['_']
          = (strConcat (p2.map pyCapitalize)).data ++ ['_'] :=
        congrArg String.data heq
      exact stringDataInj (List.append_cancel_right hd')
    · exfalso
      have hd := congrArg String.data heq
      have hd' : (strConcat (p1.map pyCapitalize)).data ++ ['_']
          = (strConcat (p2.map pyCapitalize)).data := hd
      exact hu2 '_' (by rw [← hd']; simp) rfl
    · exfalso
      have hd := congrArg String.data heq
      have hd' : (strConcat (p1.map pyCapitalize)).data
          = (strConcat (p2.map pyCapitalize)).data ++ ['_'] := hd
      exact hu1 '_' (by rw [hd']; simp) rfl
    · exact heq
  exact strConcat_cap_inj p1 p2 h1.2 h2.2 hbase

/-- The annotation a compiled object schema evaluates to is the `Name`
node of the record name synthesized from the dash-joined path. -/
theorem annotate_object_name (resolve : String → Except SkyError String)
    (props : List (String × Schema)) (required : List String)
    (names : List String) (a : PyAst) (pre : List PyAst)
    (h : _annotate_object resolve props required names = .ok (a, pre)) :
    a = .name ("_" ++ _id_pascal (pyJoinDash names) ++ "Dict") := by
  simp only [_annotate_object] at h
  split at h
  · exact Except.noConfusion h
  · split at h
    · exact Except.noConfusion h
    · injection h with h'
      injection h' with ha _
      exact ha.symm

/-- C2 (amended): over naming paths of nonempty, lowercase, purely
alphabetic segments, two object schemas compiled at different positions
receive distinct synthesized record names even when structurally
identical — the name is a function of the accumulated path only, and on
this fragment that function is injective (outside it positions can
collide, e.g. the paths `["foo-bar"]` and `["foo", "bar"]`) — and
compiling the same schema node twice at the same position is
deterministic (definitional in this pure model). -/
theorem C2_positional_names
    (resolve1 resolve2 : String → Except SkyError String)
    (props1 props2 : List (String × Schema)) (reqd1 reqd2 : List String)
    (path1 path2 : List String)
    (h1 : validPath path1) (h2 : validPath path2) (hne : path1 ≠ path2)
    (a1 a2 : PyAst) (pre1 pre2 : List PyAst)
    (e1 : _annotate_object resolve1 props1 reqd1 path1 = .ok (a1, pre1))
    (e2 : _annotate_object resolve2 props2 reqd2 path2 = .ok (a2, pre2)) :
    a1 ≠ a2
    ∧ _annotate_object resolve1 props1 reqd1 path1
        = _annotate_object resolve1 props1 reqd1 path1 := by
  refine ⟨?_, rfl⟩
  rw [annotate_object_name resolve1 props1 reqd1 path1 a1 pre1 e1,
    annotate_object_name resolve2 props2 reqd2 path2 a2 pre2 e2]
  intro hcontra
  injection hcontra with hn
  apply hne
  apply id_pascal_path_inj path1 path2 h1 h2
  have hd : ('_' :: (_id_pascal (pyJoinDash path1)).data) ++ "Dict".data
      = ('_' :: (_id_pascal (pyJoinDash path2)).data) ++ "Dict".data :=
    congrArg String.data hn
  have hc := List.append_cancel_right hd
  injection hc with _ hc'
  exact stringDataInj hc'

/-- A resolver that is never consulted in the object fixtures below. -/
def rzC2 : String → Except SkyError String :=
  fun _ => .error .resolution

/-- Counterexample to C2 as stated: the type-level path `["foo-bar"]` and
the function-argument path `["foo", "bar"]` are different positions, yet
the compiled descriptors coincide entirely — both synthesize the record
name `_FooBarDict`. -/
theorem C2_positional_names_counterexample :
    _annotate_object rzC2 [] [] ["foo-bar"]
      = _annotate_object rzC2 [] [] ["foo", "bar"]
    ∧ (["foo-bar"] : List String) ≠ ["foo", "bar"] := by
  constructor
  · have e0 : List.eraseDups ([] : List String) = [] := rfl
    simp only [_annotate_object, e0, List.map_nil, List.filter_nil,
      annotateFields]
    rfl
  · decide

/-- Witness for the amended C2: the distinct one-segment paths
`["alpha"]` and `["beta"]` produce the records `_AlphaDict` and
`_BetaDict`, whose names differ. -/
theorem C2_positional_names_witness :
    _annotate_object rzC2 [] [] ["alpha"]
      = .ok (.name "_AlphaDict",
          [_typed_dict "_AlphaRequired" true [],
           _typed_dict "_AlphaOptional" false [],
           .classDef "_AlphaDict"
             [.name "_AlphaRequired", .name "_AlphaOptional"]
             [.constant .ellipsis]])
    ∧ _annotate_object rzC2 [] [] ["beta"]
      = .ok (.name "_BetaDict",
          [_typed_dict "_BetaRequired" true [],
           _typed_dict "_BetaOptional" false [],
           .classDef "_BetaDict"
             [.name "_BetaRequired", .name "_BetaOptional"]
             [.constant .ellipsis]])
    ∧ PyAst.name "_AlphaDict" ≠ PyAst.name "_BetaDict" := by
  have e0 : List.eraseDups ([] : List String) = [] := rfl
  have e1 : _annotate_object rzC2 [] [] ["alpha"]
      = .ok (.name "_AlphaDict",
          [_typed_dict "_AlphaRequired" true [],
           _typed_dict "_AlphaOptional" false [],
           .classDef "_AlphaDict"
             [.name "_AlphaRequired", .name "_AlphaOptional"]
             [.constant .ellipsis]]) := by
    simp only [_annotate_object, e0, List.map_nil, List.filter_nil,
      annotateFields]
    rfl
  have e2 : _annotate_object rzC2 [] [] ["beta"]
      = .ok (.name "_BetaDict",
          [_typed_dict "_BetaRequired" true [],
           _typed_dict "_BetaOptional" false [],
           .classDef "_BetaDict"
             [.name "_BetaRequired", .name "_BetaOptional"]
             [.constant .ellipsis]]) := by
    simp only [_annotate_object, e0, List.map_nil, List.filter_nil,
      annotateFields]
    rfl
  exact ⟨e1, e2,
    (C2_positional_names rzC2 rzC2 [] [] [] [] ["alpha"] ["beta"]
      (by simp only [validPath, validSegment]; decide)
      (by simp only [validPath, validSegment]; decide)
      (by decide) _ _ _ _ e1 e2).1⟩
